import Mathlib

/-!
# Sitemap verification bot: classifier, retry controller, URL checker,
parallel executor, statistics

A shallow embedding of

* `src/utils/error-classifier.js`    (`classifyError`)
* `src/crawler/retry-handler.js`     (`executeWithRetry`, the backoff delay)
* `src/crawler/http-checker.js`      (`checkUrl`)
* `src/crawler/parallel-executor.js` (`executeParallel`)
* `src/utils/stats-calculator.js`    (`calculateStats`, `groupErrorsByType`)

JavaScript values are modelled only as far as the code inspects them:

* a value that may be `undefined`, `null` or present is a `JsOpt`;
* numbers that act as status codes, attempt counters and `maxRetries`
  are integers (`Int`, `Nat` for the loop counter), printed in decimal by
  template literals; `NaN` and fractions are outside the model;
* a raised `TypeError` is a `JsException`; functions that can raise
  return `Except JsException _`;
* the probe handed to `executeWithRetry` is a stateful closure: it is
  modelled as a function of the number of the attempt that calls it;
* `logger.debug` and `sleep` change no value that the functions return
  and are left out of the control flow; the duration handed to `sleep`
  is modelled on its own, over exact rationals;
* the success rate of `calculateStats` is computed in double precision
  (`Double`, `roundToDouble`), every operation rounding to the nearest
  double;
* a run of `executeParallel` is described by the order in which its
  pipelines leave `await checkUrl(...)`; the pool of `p-limit`, which
  decides when a pipeline starts, is a queue with a bounded set of
  active pipelines (`Limiter`).
-/

namespace Frontest

/-! ## JavaScript values -/

/-- A JavaScript value that is `undefined`, `null`, or a value of `α`. -/
inductive JsOpt (α : Type) where
  | undefined : JsOpt α
  | null : JsOpt α
  | val (a : α) : JsOpt α
  deriving DecidableEq, Repr

/-- An HTTP status as the code sees it: a number, `null` or `undefined`. -/
abbrev JsStatus := JsOpt Int

/-- A raised JavaScript exception that is not a value thrown by the
program itself (here always a `TypeError`), with its message. -/
inductive JsException where
  | typeError (message : String) : JsException
  deriving DecidableEq, Repr

/-- The `message` property of a raised exception. -/
def JsException.message : JsException → String
  | .typeError m => m

/-- The parts of an error object that the program reads: `error.code`,
`error.message` and `error.response` (of which only `status` is read).
`none` stands for a property that is `undefined`. An object with none
of the three also stands for a truthy primitive that was thrown. -/
structure JsError where
  code : Option String
  message : Option String
  response : Option JsStatus
  deriving DecidableEq, Repr

/-- The text the template literal gives for an integer. -/
def numToString (n : Int) : String := toString n

/-- Search of `sub` as a contiguous run inside `s`, on character lists. -/
def includesChars : List Char → List Char → Bool
  | [], sub => sub.isEmpty
  | c :: s, sub => sub.isPrefixOf (c :: s) || includesChars s sub

/-- The method `String.prototype.includes`. -/
def jsIncludes (s sub : String) : Bool := includesChars s.data sub.data

/-! ## `src/utils/error-classifier.js` -/

/-- The constant `ERROR_CATEGORIES.SUCCESS`. -/
def ERROR_CATEGORIES.SUCCESS : String := "success"
/-- The constant `ERROR_CATEGORIES.CLIENT_ERROR`. -/
def ERROR_CATEGORIES.CLIENT_ERROR : String := "client_error"
/-- The constant `ERROR_CATEGORIES.SERVER_ERROR`. -/
def ERROR_CATEGORIES.SERVER_ERROR : String := "server_error"
/-- The constant `ERROR_CATEGORIES.NETWORK_ERROR`. -/
def ERROR_CATEGORIES.NETWORK_ERROR : String := "network_error"
/-- The constant `ERROR_CATEGORIES.TIMEOUT`. -/
def ERROR_CATEGORIES.TIMEOUT : String := "timeout"

/-- The table `HTTP_ERROR_DESCRIPTIONS`; `none` for a key it lacks. -/
def HTTP_ERROR_DESCRIPTIONS (statusCode : Int) : Option String :=
  if statusCode = 400 then some "Bad Request"
  else if statusCode = 401 then some "Unauthorized"
  else if statusCode = 403 then some "Forbidden"
  else if statusCode = 404 then some "Not Found"
  else if statusCode = 405 then some "Method Not Allowed"
  else if statusCode = 408 then some "Request Timeout"
  else if statusCode = 429 then some "Too Many Requests"
  else if statusCode = 500 then some "Internal Server Error"
  else if statusCode = 501 then some "Not Implemented"
  else if statusCode = 502 then some "Bad Gateway"
  else if statusCode = 503 then some "Service Unavailable"
  else if statusCode = 504 then some "Gateway Timeout"
  else none

/-- The object `classifyError` returns. -/
structure RetryDecision where
  category : String
  shouldRetry : Bool
  description : String
  deriving DecidableEq, Repr

/-- The test `error.code === 'ECONNABORTED' || error.message.includes('timeout')`.
The right operand is evaluated only when the left one is false, and
raises a `TypeError` when `error.message` is `undefined`. -/
def isTimeoutError (error : JsError) : Except JsException Bool :=
  if error.code = some "ECONNABORTED" then .ok true
  else
    match error.message with
    | none => .error (.typeError "Cannot read properties of undefined (reading 'includes')")
    | some m => .ok (jsIncludes m "timeout")

/-- The branch of `classifyError` taken when `!statusCode` holds.
`error = none` is an absent, `null` or otherwise falsy argument. -/
def classifyNoStatus (error : Option JsError) : Except JsException RetryDecision :=
  match error with
  | none =>
    .ok { category := ERROR_CATEGORIES.NETWORK_ERROR, shouldRetry := false,
          description := "Unknown network error" }
  | some e =>
    match isTimeoutError e with
    | .error x => .error x
    | .ok true =>
      .ok { category := ERROR_CATEGORIES.TIMEOUT, shouldRetry := true,
            description := "Request timeout" }
    | .ok false =>
      if e.code = some "ENOTFOUND" ∨ e.code = some "ECONNREFUSED" then
        .ok { category := ERROR_CATEGORIES.NETWORK_ERROR, shouldRetry := false,
              description := "Network error: " ++ (e.code.getD "") }
      else
        .ok { category := ERROR_CATEGORIES.NETWORK_ERROR, shouldRetry := false,
              description := "Unknown network error" }

/-- The branches of `classifyError` for a truthy (non-zero) numeric status. -/
def classifyStatus (statusCode : Int) : RetryDecision :=
  if 200 ≤ statusCode ∧ statusCode < 300 then
    { category := ERROR_CATEGORIES.SUCCESS, shouldRetry := false, description := "Success" }
  else if 300 ≤ statusCode ∧ statusCode < 400 then
    { category := ERROR_CATEGORIES.SUCCESS, shouldRetry := false, description := "Redirect" }
  else if 400 ≤ statusCode ∧ statusCode < 500 then
    { category := ERROR_CATEGORIES.CLIENT_ERROR,
      shouldRetry := decide (statusCode = 408 ∨ statusCode = 429),
      description := (HTTP_ERROR_DESCRIPTIONS statusCode).getD
        ("Client Error (" ++ numToString statusCode ++ ")") }
  else if 500 ≤ statusCode ∧ statusCode < 600 then
    { category := ERROR_CATEGORIES.SERVER_ERROR, shouldRetry := true,
      description := (HTTP_ERROR_DESCRIPTIONS statusCode).getD
        ("Server Error (" ++ numToString statusCode ++ ")") }
  else
    { category := ERROR_CATEGORIES.CLIENT_ERROR, shouldRetry := false,
      description := "Unknown status code: " ++ numToString statusCode }

/-- The function `classifyError(statusCode, error = null)`. The test
`!statusCode` holds for `undefined`, for `null` and for the number `0`. -/
def classifyError (statusCode : JsStatus) (error : Option JsError) :
    Except JsException RetryDecision :=
  match statusCode with
  | .undefined => classifyNoStatus error
  | .null => classifyNoStatus error
  | .val n => if n = 0 then classifyNoStatus error else .ok (classifyStatus n)

/-! ## `src/crawler/retry-handler.js` -/

/-- The section `retry` of `config/default.js`. -/
structure RetryConfig where
  maxRetries : Int
  retryDelay : Int
  backoffMultiplier : Int
  maxBackoffDelay : Int
  deriving DecidableEq, Repr

/-- The argument `options` of `executeWithRetry`; `none` is a property
that is `undefined` or `null`, for which `??` takes the configured value. -/
structure RetryOptions where
  maxRetries : Option Int
  retryDelay : Option Int
  deriving DecidableEq, Repr

/-- The default `options = {}`. -/
def RetryOptions.empty : RetryOptions := { maxRetries := none, retryDelay := none }

/-- A value a probe can throw (reject with), as far as the handler
tells values apart: `null`, `undefined`, another falsy primitive, or an
object (or truthy primitive) with the properties of `JsError`. -/
inductive Thrown where
  | null : Thrown
  | undefined : Thrown
  | falsy : Thrown
  | obj (e : JsError) : Thrown
  deriving DecidableEq, Repr

/-- What one call `await fn()` does: it yields a result or it throws. -/
inductive ProbeOutcome (ρ : Type) where
  | resolved (result : ρ) : ProbeOutcome ρ
  | rejected (error : Thrown) : ProbeOutcome ρ
  deriving DecidableEq, Repr

/-- The expression `error.response?.status`; reading a property of
`null` or `undefined` raises a `TypeError`. -/
def Thrown.responseStatus : Thrown → Except JsException JsStatus
  | .null => .error (.typeError "Cannot read properties of null (reading 'response')")
  | .undefined => .error (.typeError "Cannot read properties of undefined (reading 'response')")
  | .falsy => .ok .undefined
  | .obj e => .ok (e.response.getD .undefined)

/-- The thrown value as the argument `error` of `classifyError`:
`none` when it is falsy. -/
def Thrown.asErrorArg : Thrown → Option JsError
  | .null => none
  | .undefined => none
  | .falsy => none
  | .obj e => some e

/-- The object literal thrown by `executeWithRetry` when it gives up. -/
structure FailureRecord where
  url : String
  statusCode : JsStatus
  attempts : Nat
  error : String
  category : String
  deriving DecidableEq, Repr

/-- How a call of `executeWithRetry` ends. -/
inductive RetryOutcome (ρ : Type) where
  /-- The statement `return { ...result, attempts: attempt }`. -/
  | returned (result : ρ) (attempts : Nat) : RetryOutcome ρ
  /-- The `for` loop ran to its end: the function returns `undefined`. -/
  | returnedUndefined : RetryOutcome ρ
  /-- The statement `throw { url, statusCode, attempts, error, category }`. -/
  | thrown (record : FailureRecord) : RetryOutcome ρ
  /-- An exception raised inside the `catch` block leaves the function. -/
  | raised (x : JsException) : RetryOutcome ρ
  deriving DecidableEq, Repr

/-- What one pass through the body of the `for` loop does: leave the
function, or reach the end of the body (after the sleep). -/
inductive Step (ρ : Type) where
  | finish (out : RetryOutcome ρ) : Step ρ
  | retry : Step ρ
  deriving DecidableEq, Repr

/-- The first statements of the `catch` block: the status
`error.response?.status` and the decision `classifyError(lastStatusCode, error)`. -/
def classifyThrown (error : Thrown) : Except JsException (JsStatus × RetryDecision) :=
  match error.responseStatus with
  | .error x => .error x
  | .ok lastStatusCode =>
    match classifyError lastStatusCode error.asErrorArg with
    | .error x => .error x
    | .ok classification => .ok (lastStatusCode, classification)

/-- The body of the `for` loop (the `try`/`catch`) at counter `attempt`.
`fn attempt` is what the probe does when called in that pass. -/
def attemptBody {ρ : Type} (fn : Nat → ProbeOutcome ρ) (url : String) (maxRetries : Int)
    (attempt : Nat) : Step ρ :=
  match fn attempt with
  | .resolved result => .finish (.returned result attempt)
  | .rejected error =>
    match classifyThrown error with
    | .error x => .finish (.raised x)
    | .ok (lastStatusCode, classification) =>
      if !classification.shouldRetry || decide ((attempt : Int) = maxRetries + 1) then
        .finish (.thrown
          { url := url, statusCode := lastStatusCode, attempts := attempt,
            error := classification.description, category := classification.category })
      else .retry

/-- The loop `for (let attempt = ...; ...; attempt++) body` over the
successive values of its counter. The second component lists, in order,
the counter values at which the probe was called. -/
def forLoop {ρ : Type} (body : Nat → Step ρ) : List Nat → RetryOutcome ρ × List Nat
  | [] => (.returnedUndefined, [])
  | attempt :: rest =>
    match body attempt with
    | .finish out => (out, [attempt])
    | .retry => ((forLoop body rest).1, attempt :: (forLoop body rest).2)

/-- The value `options.maxRetries ?? config.retry.maxRetries`. -/
def effectiveMaxRetries (config : RetryConfig) (options : RetryOptions) : Int :=
  options.maxRetries.getD config.maxRetries

/-- The function `executeWithRetry(fn, url, options)`: its outcome, and
the attempts at which it called `fn`. The counter runs over
`1, 2, ..., maxRetries + 1` (over nothing when `maxRetries + 1 < 1`). -/
def executeWithRetry {ρ : Type} (config : RetryConfig) (fn : Nat → ProbeOutcome ρ)
    (url : String) (options : RetryOptions) : RetryOutcome ρ × List Nat :=
  forLoop (attemptBody fn url (effectiveMaxRetries config options))
    (List.range' 1 (effectiveMaxRetries config options + 1).toNat)

/-! ## `src/crawler/http-checker.js` -/

/-- The parts of an axios response that `checkUrl` reads:
`response.status` and `response.config?.url` (`none`: `undefined`). -/
structure AxiosResponse where
  status : Int
  configUrl : Option String
  deriving DecidableEq, Repr

/-- The network as seen by `checkUrl`: what `client.head(url)` and
`client.get(url)` do when called during a given attempt. -/
structure Transport where
  head : Nat → ProbeOutcome AxiosResponse
  get : Nat → ProbeOutcome AxiosResponse

/-- The record `checkUrl` resolves to. `responseTime` and `description`
are `none` when the object has no such property (or it is `undefined`). -/
structure OutcomeRecord where
  url : String
  statusCode : JsStatus
  responseTime : Option Int
  attempts : Nat
  redirectUrl : JsOpt String
  category : String
  description : Option String
  error : JsOpt String
  deriving DecidableEq, Repr

/-- The probe `checkUrl` hands to `executeWithRetry`: HEAD, then GET
when the HEAD response has status 405. -/
def checkUrlProbe (net : Transport) (attempt : Nat) : ProbeOutcome AxiosResponse :=
  match net.head attempt with
  | .rejected error => .rejected error
  | .resolved response =>
    if response.status = 405 then net.get attempt else .resolved response

/-- The final `return` of the `catch` block of `checkUrl`; `message`
is `error.message` of the value caught. -/
def networkErrorRecord (url : String) (responseTime : Int) (message : Option String) :
    OutcomeRecord :=
  { url := url, statusCode := .null, responseTime := some responseTime, attempts := 1,
    redirectUrl := .null, category := "network_error", description := message,
    error := match message with
      | none => .undefined
      | some m => .val m }

/-- The function `checkUrl(url)`. `startTime` and `endTime` are the two
readings of `Date.now()`; `config` is the imported configuration. -/
def checkUrl (config : RetryConfig) (net : Transport) (url : String)
    (startTime endTime : Int) : OutcomeRecord :=
  match (executeWithRetry config (checkUrlProbe net) url RetryOptions.empty).1 with
  | .returned result attempts =>
    match classifyError (.val result.status) none with
    | .ok classification =>
      { url := url, statusCode := .val result.status,
        responseTime := some (endTime - startTime), attempts := attempts,
        redirectUrl :=
          if result.configUrl ≠ some url then
            (match result.configUrl with
              | none => .undefined
              | some u => .val u)
          else .null,
        category := classification.category,
        description := some classification.description, error := .null }
    | .error x => networkErrorRecord url (endTime - startTime) (some x.message)
  | .returnedUndefined =>
    networkErrorRecord url (endTime - startTime)
      (some "Cannot read properties of undefined (reading 'status')")
  | .thrown record =>
    if record.url ≠ "" then
      { url := record.url, statusCode := record.statusCode, responseTime := none,
        attempts := record.attempts, redirectUrl := .undefined,
        category := record.category, description := none, error := .val record.error }
    else networkErrorRecord url (endTime - startTime) none
  | .raised x => networkErrorRecord url (endTime - startTime) (some x.message)

/-! ## The backoff delay of `src/crawler/retry-handler.js`

Delays are JavaScript numbers. They are modelled as exact rationals, and
the value of `Math.random()` is a parameter `random` with
`0 ≤ random < 1`; rounding of floating-point products is not modelled. -/

/-- The value `options.retryDelay ?? config.retry.retryDelay`. -/
def effectiveRetryDelay (config : RetryConfig) (options : RetryOptions) : Int :=
  options.retryDelay.getD config.retryDelay

/-- The value `Math.min(retryDelay * Math.pow(backoffMultiplier, attempt - 1),
maxBackoffDelay)`; the loop counter `attempt` is at least 1. -/
def exponentialDelay (retryDelay backoffMultiplier maxBackoffDelay : ℚ) (attempt : Nat) : ℚ :=
  min (retryDelay * backoffMultiplier ^ (attempt - 1)) maxBackoffDelay

/-- The value `Math.random() * 0.1 * exponentialDelay`. -/
def jitter (random delay : ℚ) : ℚ := random * (1 / 10) * delay

/-- The value `totalDelay = exponentialDelay + jitter` handed to `sleep`. -/
def totalDelay (retryDelay backoffMultiplier maxBackoffDelay : ℚ) (attempt : Nat)
    (random : ℚ) : ℚ :=
  exponentialDelay retryDelay backoffMultiplier maxBackoffDelay attempt
    + jitter random (exponentialDelay retryDelay backoffMultiplier maxBackoffDelay attempt)

/-- The sleep of `executeWithRetry` after the failed attempt `attempt`,
from its `options` and the imported configuration. -/
def retrySleep (config : RetryConfig) (options : RetryOptions) (attempt : Nat)
    (random : ℚ) : ℚ :=
  totalDelay (effectiveRetryDelay config options) config.backoffMultiplier
    config.maxBackoffDelay attempt random

/-! ## The requests of one probe of `checkUrl` -/

/-- The two request methods `checkUrl` uses. -/
inductive HttpMethod where
  | HEAD : HttpMethod
  | GET : HttpMethod
  deriving DecidableEq, Repr

/-- A request issued through the axios client: `client.head(url)` or
`client.get(url)`. -/
structure Request where
  method : HttpMethod
  url : String
  deriving DecidableEq, Repr

/-- The probe of `checkUrl` together with the requests it issues, in
order: `client.head(url)`, then `client.get(url)` when the HEAD response
has status 405. -/
def checkUrlProbeTraced (net : Transport) (url : String) (attempt : Nat) :
    List Request × ProbeOutcome AxiosResponse :=
  match net.head attempt with
  | .rejected error => ([{ method := .HEAD, url := url }], .rejected error)
  | .resolved response =>
    if response.status = 405 then
      ([{ method := .HEAD, url := url }, { method := .GET, url := url }], net.get attempt)
    else ([{ method := .HEAD, url := url }], .resolved response)

/-! ## `src/crawler/parallel-executor.js`

JavaScript runs the pipelines on one thread: a pipeline is suspended
only inside `await checkUrl(...)`, and what follows the `await` (the
call of `onProgress`, the `return`, the `catch` block) runs without
interruption. A run is therefore described by the order in which the
pipelines leave their `await`, the `schedule`. The limiter `p-limit`
decides which schedules can occur; it does not change what a pipeline
computes. -/

/-- An entry of the input list; only `url` is read. -/
structure UrlEntry where
  url : String
  deriving DecidableEq, Repr

/-- The object handed to `onProgress`. -/
structure Progress where
  completed : Nat
  total : Nat
  url : String
  statusCode : JsStatus
  deriving DecidableEq, Repr

/-- What one call of the callback does: it returns, or it throws. -/
inductive CallbackResult where
  | returned : CallbackResult
  | threw (error : Thrown) : CallbackResult
  deriving DecidableEq, Repr

/-- The callback `onProgress`, a closure that may keep state: what a
call does may depend on the arguments of the calls made before it
(first argument, oldest first) and on its own argument. -/
abbrev ProgressCallback := List Progress → Progress → CallbackResult

/-- What `await checkUrl(urlEntry.url)` does inside a pipeline: it
yields a record, or it throws. -/
inductive CheckResult where
  | resolved (result : OutcomeRecord) : CheckResult
  | rejected (error : Thrown) : CheckResult
  deriving DecidableEq, Repr

/-- The expression `error.message` of the `catch` block; reading a
property of `null` or `undefined` raises a `TypeError`. -/
def Thrown.readMessage : Thrown → Except JsException (Option String)
  | .null => .error (.typeError "Cannot read properties of null (reading 'message')")
  | .undefined => .error (.typeError "Cannot read properties of undefined (reading 'message')")
  | .falsy => .ok none
  | .obj e => .ok e.message

/-- The record built by the `catch` block of a pipeline from
`error.message`. The object has no property `redirectUrl`. -/
def pipelineErrorRecord (urlEntry : UrlEntry) (message : Option String) : OutcomeRecord :=
  { url := urlEntry.url, statusCode := .null, responseTime := some 0, attempts := 1,
    redirectUrl := .undefined, category := "error", description := message,
    error := match message with
      | none => .undefined
      | some m => .val m }

/-- The `catch` block of a pipeline: it reads `error.message` (for the
log line and for the record) and returns the record. -/
def pipelineCatch (urlEntry : UrlEntry) (error : Thrown) : Except JsException OutcomeRecord :=
  match error.readMessage with
  | .error x => .error x
  | .ok message => .ok (pipelineErrorRecord urlEntry message)

/-- The part of the pipeline for the entry at `index` that follows
`await checkUrl(...)`, given what the check did and the calls of
`onProgress` made so far. It yields how the task settles (a record, or
a rejection) and the calls made so far afterwards. `onProgress = none`
is the default `null`. -/
def pipeline (total : Nat) (onProgress : Option ProgressCallback) (check : CheckResult)
    (index : Nat) (urlEntry : UrlEntry) (calls : List Progress) :
    Except JsException OutcomeRecord × List Progress :=
  match check with
  | .rejected error => (pipelineCatch urlEntry error, calls)
  | .resolved result =>
    match onProgress with
    | none => (.ok result, calls)
    | some callback =>
      match callback calls
          { completed := index + 1, total := total, url := urlEntry.url,
            statusCode := result.statusCode } with
      | .returned =>
        (.ok result,
          calls ++ [{ completed := index + 1, total := total, url := urlEntry.url,
                      statusCode := result.statusCode }])
      | .threw error =>
        (pipelineCatch urlEntry error,
          calls ++ [{ completed := index + 1, total := total, url := urlEntry.url,
                      statusCode := result.statusCode }])

/-- The pipelines run to their end in the order of `schedule`; each is
given by its index and entry. The result lists how each task settled,
in that order, and the calls of `onProgress` made. -/
def runPipelines (total : Nat) (onProgress : Option ProgressCallback)
    (check : Nat → UrlEntry → CheckResult) :
    List (Nat × UrlEntry) → List Progress →
      List (Nat × Except JsException OutcomeRecord) × List Progress
  | [], calls => ([], calls)
  | (index, urlEntry) :: rest, calls =>
    ((index, (pipeline total onProgress (check index urlEntry) index urlEntry calls).1) ::
        (runPipelines total onProgress check rest
          (pipeline total onProgress (check index urlEntry) index urlEntry calls).2).1,
      (runPipelines total onProgress check rest
        (pipeline total onProgress (check index urlEntry) index urlEntry calls).2).2)

/-- The first rejection among the settled tasks, in the order in which
they settled. -/
def firstRejection : List (Nat × Except JsException OutcomeRecord) → Option JsException
  | [] => none
  | (_, .error x) :: _ => some x
  | (_, .ok _) :: rest => firstRejection rest

/-- The records of the tasks, in the order of the task list, when each
task has settled with a record. -/
def collectResults (settled : List (Nat × Except JsException OutcomeRecord)) :
    List (Nat × UrlEntry) → Option (List OutcomeRecord)
  | [] => some []
  | (index, _) :: rest =>
    match settled.lookup index with
    | some (.ok record) => (collectResults settled rest).map (fun records => record :: records)
    | _ => none

/-- The expression `await Promise.all(tasks)`: it rejects with the first
rejection of a task; otherwise it resolves with the records in the order
of the task list once every task has settled, and it stays pending
(`none`) when some task never settles. -/
def promiseAll (settled : List (Nat × Except JsException OutcomeRecord))
    (tasks : List (Nat × UrlEntry)) : Option (Except JsException (List OutcomeRecord)) :=
  match firstRejection settled with
  | some x => some (.error x)
  | none => (collectResults settled tasks).map .ok

/-- What a run of `executeParallel` shows: how its promise settles
(`none`: never) and the arguments of the calls of `onProgress`, in the
order of the calls. -/
structure ParallelRun where
  settlement : Option (Except JsException (List OutcomeRecord))
  progressCalls : List Progress

/-- The function `executeParallel(urls, onProgress)` with the check of a
pipeline left open: `check index urlEntry` is what `await checkUrl(...)`
does in the pipeline of that entry. The task list is
`urls.map((urlEntry, index) => ...)`; the outer `catch` throws the
rejection on unchanged. -/
def executeParallelWith (check : Nat → UrlEntry → CheckResult) (urls : List UrlEntry)
    (onProgress : Option ProgressCallback) (schedule : List (Nat × UrlEntry)) : ParallelRun :=
  { settlement :=
      promiseAll (runPipelines urls.length onProgress check schedule []).1 urls.enum,
    progressCalls := (runPipelines urls.length onProgress check schedule []).2 }

/-- The surroundings of the check of one pipeline: the network and the
two clock readings of its `checkUrl`. -/
structure CheckEnv where
  net : Transport
  startTime : Int
  endTime : Int

/-- The function `executeParallel(urls, onProgress)`: every pipeline
awaits `checkUrl(urlEntry.url)`, which always yields a record. -/
def executeParallel (config : RetryConfig) (env : Nat → CheckEnv) (urls : List UrlEntry)
    (onProgress : Option ProgressCallback) (schedule : List (Nat × UrlEntry)) : ParallelRun :=
  executeParallelWith
    (fun index urlEntry =>
      .resolved (checkUrl config (env index).net urlEntry.url (env index).startTime
        (env index).endTime))
    urls onProgress schedule

/-! ## `src/utils/stats-calculator.js`

Response times are integers (differences of `Date.now()` readings).
For the percentile index and the average, `Math.ceil` and `Math.round`
are taken on exact quotients. The success rate is computed as the code
computes it, in double precision: each of `/`, `*` and `/` rounds its
exact result to the nearest double (ties to even). The object
`statusCodeCounts` is an association list in the order in which the keys
are first written; the order in which JavaScript enumerates the keys is
not modelled. -/

/-- A finite double that is not negative: the number
`mantissa * 2 ^ exponent`. The exponent range of doubles is not
modelled; the numbers of the success rate (counts below `2 ^ 32` and
quotients of them times at most 10000) stay far inside it. -/
structure Double where
  mantissa : Nat
  exponent : Int
  deriving DecidableEq, Repr

/-- The number a double stands for. -/
def Double.toRat (x : Double) : ℚ := (x.mantissa : ℚ) * (2 : ℚ) ^ x.exponent

/-- The number of halvings that bring `n` below 2, for at most `fuel`
halvings. -/
def log2Steps : Nat → Nat → Nat
  | 0, _ => 0
  | fuel + 1, n => if n < 2 then 0 else log2Steps fuel (n / 2) + 1

/-- The integer part of the binary logarithm of `n ≥ 1`. -/
def log2Floor (n : Nat) : Nat := log2Steps n n

/-- The integer part of the binary logarithm of `p / q`, for `p, q ≥ 1`:
it is the difference of the two logarithms, or one less. -/
def ratioLog2 (p q : Nat) : Int :=
  if q * 2 ^ log2Floor p ≤ p * 2 ^ log2Floor q then (log2Floor p : Int) - log2Floor q
  else (log2Floor p : Int) - log2Floor q - 1

/-- The integer nearest to `num / den`; a tie goes to the even one. -/
def roundHalfEven (num den : Nat) : Nat :=
  if 2 * (num % den) < den then num / den
  else if den < 2 * (num % den) then num / den + 1
  else num / den + (num / den) % 2

/-- The integer nearest to `(p / q) / 2 ^ shift`, ties to even. -/
def significand (p q : Nat) (shift : Int) : Nat :=
  if 0 ≤ shift then roundHalfEven p (q * 2 ^ shift.toNat)
  else roundHalfEven (p * 2 ^ (-shift).toNat) q

/-- The double nearest to the number `(p / q) * 2 ^ e`, ties to even:
the number is scaled so that it lies between `2 ^ 52` and `2 ^ 53`,
rounded to an integer, and scaled back. -/
def roundToDouble (p q : Nat) (e : Int) : Double :=
  if p = 0 then { mantissa := 0, exponent := 0 }
  else { mantissa := significand p q (ratioLog2 p q - 52), exponent := ratioLog2 p q - 52 + e }

/-- The product `x * 100` of a double and the number 100. -/
def timesHundred (x : Double) : Double := roundToDouble (x.mantissa * 100) 1 x.exponent

/-- The value `Math.round(x)` for a double `x ≥ 0`: the integer nearest
to `x`, a half rounding upwards; no rounding error occurs. -/
def mathRound (x : Double) : Nat :=
  if 0 ≤ x.exponent then x.mantissa * 2 ^ x.exponent.toNat
  else (2 * x.mantissa + 2 ^ (-x.exponent).toNat) / 2 ^ ((-x.exponent).toNat + 1)

/-- The value `Math.round(successRate * 100) / 100` with
`successRate = (successful / total) * 100`, for the two counts
`successful = successful.length` and `total = results.length`. -/
def successRateDouble (successful total : Nat) : Double :=
  roundToDouble (mathRound (timesHundred (timesHundred (roundToDouble successful total 0))))
    100 0

/-- The comparison `statusCode >= n`: `null` compares as 0 and
`undefined` as `NaN`, for which every comparison is false. -/
def statusGe (statusCode : JsStatus) (n : Int) : Bool :=
  match statusCode with
  | .val v => decide (n ≤ v)
  | .null => decide (n ≤ 0)
  | .undefined => false

/-- The comparison `statusCode < n`, with the same conversions. -/
def statusLt (statusCode : JsStatus) (n : Int) : Bool :=
  match statusCode with
  | .val v => decide (v < n)
  | .null => decide (0 < n)
  | .undefined => false

/-- The summary `calculateStats` returns. -/
structure StatisticsSummary where
  totalUrls : Nat
  successful : Nat
  failed : Nat
  successRate : ℚ
  avgResponseTime : Int
  minResponseTime : Int
  maxResponseTime : Int
  p50 : Int
  p95 : Int
  p99 : Int
  statusCodeCounts : List (JsStatus × Nat)

/-- The function `getEmptyStats()`. -/
def getEmptyStats : StatisticsSummary :=
  { totalUrls := 0, successful := 0, failed := 0, successRate := 0, avgResponseTime := 0,
    minResponseTime := 0, maxResponseTime := 0, p50 := 0, p95 := 0, p99 := 0,
    statusCodeCounts := [] }

/-- The array `successful`:
`results.filter(r => r.statusCode >= 200 && r.statusCode < 400)`. -/
def successfulResults (results : List OutcomeRecord) : List OutcomeRecord :=
  results.filter (fun r => statusGe r.statusCode 200 && statusLt r.statusCode 400)

/-- The array `failed`: `results.filter(r => r.statusCode >= 400)`. -/
def failedResults (results : List OutcomeRecord) : List OutcomeRecord :=
  results.filter (fun r => statusGe r.statusCode 400)

/-- The array `responseTimes`:
`results.map(r => r.responseTime).filter(t => t > 0)`; the test `t > 0`
is false for `undefined`. -/
def positiveResponseTimes (results : List OutcomeRecord) : List Int :=
  (results.map (fun r => r.responseTime)).filterMap
    (fun t => match t with
      | some v => if 0 < v then some v else none
      | none => none)

/-- The array `sortedTimes`: `responseTimes.sort((a, b) => a - b)`. -/
def sortedTimes (results : List OutcomeRecord) : List Int :=
  (positiveResponseTimes results).insertionSort (fun a b => a ≤ b)

/-- The statement `statusCodeCounts[key] = (statusCodeCounts[key] || 0) + 1`. -/
def incrementCount : List (JsStatus × Nat) → JsStatus → List (JsStatus × Nat)
  | [], key => [(key, 1)]
  | (k, count) :: rest, key =>
    if k = key then (k, count + 1) :: rest else (k, count) :: incrementCount rest key

/-- The object `statusCodeCounts` after the `forEach` over `results`. -/
def countStatusCodes (results : List OutcomeRecord) : List (JsStatus × Nat) :=
  results.foldl (fun counts r => incrementCount counts r.statusCode) []

/-- The value `Math.round(a / b)` for an integer `a` and `b > 0`: the
nearest integer, a half rounding upwards. -/
def roundDiv (a : Int) (b : Nat) : Int := (2 * a + b) / (2 * b)

/-- The function `getPercentile(p)`: with `n = sortedTimes.length`, the
index is `Math.ceil((p / 100) * n) - 1`, raised to 0 by `Math.max`. -/
def getPercentile (sorted : List Int) (p : Nat) : Int :=
  if sorted.length = 0 then 0
  else (sorted[(max 0 ((((p * sorted.length + 99) / 100 : Nat) : Int) - 1)).toNat]?).getD 0

/-- The function `calculateStats(results)` on an array. -/
def calculateStats (results : List OutcomeRecord) : StatisticsSummary :=
  if results.length = 0 then getEmptyStats
  else
    { totalUrls := results.length,
      successful := (successfulResults results).length,
      failed := (failedResults results).length,
      successRate :=
        (successRateDouble (successfulResults results).length results.length).toRat,
      avgResponseTime :=
        if 0 < (positiveResponseTimes results).length then
          roundDiv (positiveResponseTimes results).sum (positiveResponseTimes results).length
        else 0,
      minResponseTime := (sortedTimes results).head?.getD 0,
      maxResponseTime := (sortedTimes results).getLast?.getD 0,
      p50 := getPercentile (sortedTimes results) 50,
      p95 := getPercentile (sortedTimes results) 95,
      p99 := getPercentile (sortedTimes results) 99,
      statusCodeCounts := countStatusCodes results }

/-- The function `calculateStats(results)` on any argument: the test
`!results` holds for `null` and `undefined`, for which the function
returns `getEmptyStats()`; an array, even an empty one, is truthy. -/
def calculateStatsArg (results : JsOpt (List OutcomeRecord)) : StatisticsSummary :=
  match results with
  | .undefined => getEmptyStats
  | .null => getEmptyStats
  | .val array => calculateStats array

/-- An element `{ url, attempts, error }` of a group of
`groupErrorsByType`. -/
structure ErrorEntry where
  url : String
  attempts : Nat
  error : JsOpt String
  deriving DecidableEq, Repr

/-- The body of the `forEach` of `groupErrorsByType`: the group of the
key is created empty when `errors[statusCode]` is missing, and the entry
is pushed to its end. -/
def pushError : List (JsStatus × List ErrorEntry) → JsStatus → ErrorEntry →
    List (JsStatus × List ErrorEntry)
  | [], key, entry => [(key, [entry])]
  | (k, group) :: rest, key, entry =>
    if k = key then (k, group ++ [entry]) :: rest
    else (k, group) :: pushError rest key entry

/-- The function `groupErrorsByType(results)`; the object `errors` is an
association list in the order in which the keys are first written. -/
def groupErrorsByType (results : List OutcomeRecord) : List (JsStatus × List ErrorEntry) :=
  (results.filter (fun r => statusGe r.statusCode 400)).foldl
    (fun errors r =>
      pushError errors r.statusCode { url := r.url, attempts := r.attempts, error := r.error })
    []

/-- Following the specification of the percentiles: the index
`ceil(p/100 * n) - 1` clamped to `[0, n - 1]` (nearest rank). -/
def nearestRankIndex (n : Nat) (p : ℚ) : Int :=
  max 0 (min ((n : Int) - 1) (⌈p / 100 * n⌉ - 1))

/-! ## The pool of `p-limit` in `src/crawler/parallel-executor.js`

`executeParallel` creates one limiter, `limit = pLimit(maxParallel)`,
and hands every pipeline whole to `limit(...)` (lines 18 to 44): the
function passed for entry `index` contains `await checkUrl(...)`, that
is all attempts and backoff sleeps of the entry, the progress call and
the `catch` block. The limiter alone decides when a pipeline starts. -/

/-- Modelled from the spec: the package `p-limit`, which
`parallel-executor.js` requires for `pLimit` and `limit`, is not among
the sources. The limiter is the pool the spec describes, which "admits
at most `concurrencyLimit` concurrently executing pipelines at any
instant" and is "a fixed-size worker-pool-plus-queue", in line with the
documentation of the package (`activeCount`, `pendingCount`): `pending`
holds the indices of the pipelines passed to `limit` that have not
started, in the order of the calls; `active` those that have started and
have not settled; `finished` those that have settled. -/
structure Limiter where
  concurrency : Int
  pending : List Nat
  active : List Nat
  finished : List Nat
  deriving DecidableEq, Repr

/-- Modelled from the spec: the call `pLimit(maxParallel)` of the
package `p-limit`, absent from the sources. The package documents a
concurrency from 1 upwards and raises a `TypeError` for any other
value; the limiter starts with nothing pending and nothing active. The
value `NaN`, which `parseInt` yields for an unreadable
`MAX_PARALLEL_REQUESTS`, is outside the model (it is refused too). -/
def pLimit (maxParallel : Int) : Except JsException Limiter :=
  if 1 ≤ maxParallel then
    .ok { concurrency := maxParallel, pending := [], active := [], finished := [] }
  else .error (.typeError "Expected concurrency to be a number from 1 and up")

/-- Modelled from the spec: what can happen to the pool of the package
`p-limit`, absent from the sources, during `executeParallel`.
`call index` is `urls.map` calling `limit(...)` with the pipeline of
entry `index`; `dequeue` is the limiter looking at its queue; `settle
index` is the promise of the pipeline of entry `index` settling, which
happens after its `checkUrl` has returned. -/
inductive PoolEvent where
  | call (index : Nat) : PoolEvent
  | dequeue : PoolEvent
  | settle (index : Nat) : PoolEvent
  deriving DecidableEq, Repr

/-- Modelled from the spec: the call `limit(fn)` of the package
`p-limit`, absent from the sources, puts the pipeline at the end of the
queue. -/
def Limiter.enqueue (limiter : Limiter) (index : Nat) : Limiter :=
  { limiter with pending := limiter.pending ++ [index] }

/-- Modelled from the spec: the limiter of the package `p-limit`, absent
from the sources, starts the pipeline at the head of its queue when
fewer than `concurrency` pipelines are active, and does nothing
otherwise. -/
def Limiter.startNext (limiter : Limiter) : Limiter :=
  match limiter.pending with
  | [] => limiter
  | index :: rest =>
    if (limiter.active.length : Int) < limiter.concurrency then
      { limiter with pending := rest, active := limiter.active ++ [index] }
    else limiter

/-- Modelled from the spec: when an active pipeline settles, the limiter
of the package `p-limit`, absent from the sources, frees its slot and
looks at its queue; the settling of a pipeline that is not active
changes nothing. -/
def Limiter.settle (limiter : Limiter) (index : Nat) : Limiter :=
  if index ∈ limiter.active then
    Limiter.startNext
      { limiter with
        active := limiter.active.erase index, finished := limiter.finished ++ [index] }
  else limiter

/-- Modelled from the spec: one event on the pool of the package
`p-limit`, absent from the sources. -/
def Limiter.step (limiter : Limiter) : PoolEvent → Limiter
  | .call index => limiter.enqueue index
  | .dequeue => limiter.startNext
  | .settle index => limiter.settle index

/-- Modelled from the spec: the states the pool of the package
`p-limit`, absent from the sources, passes through under a sequence of
events, the first state included. -/
def poolTrace (limiter : Limiter) : List PoolEvent → List Limiter
  | [] => [limiter]
  | event :: events => limiter :: poolTrace (limiter.step event) events

/-- Modelled from the spec: the states of the pool during
`executeParallel`, the package `p-limit` being absent from the sources.
Line 13 creates the limiter; when `pLimit` raises, `executeParallel`
rejects before any pipeline exists. Every sequence of events is
admitted, whatever the order in which calls, admissions and settlements
interleave. -/
def executeParallelPool (maxParallel : Int) (events : List PoolEvent) :
    Except JsException (List Limiter) :=
  match pLimit maxParallel with
  | .error e => .error e
  | .ok limiter => .ok (poolTrace limiter events)


/-! ## Example inputs -/

/-- The section `retry` of `config/default.js` when no environment
variable overrides it. -/
def defaultRetryConfig : RetryConfig :=
  { maxRetries := 3, retryDelay := 1000, backoffMultiplier := 2, maxBackoffDelay := 30000 }

/-- An axios-style error for a response with the given status. -/
def statusError (status : Int) : JsError :=
  { code := some "ERR_BAD_RESPONSE", message := some "Request failed",
    response := some (.val status) }

/-- A probe that throws an error with status 404 at every call. -/
def always404 : Nat → ProbeOutcome AxiosResponse :=
  fun _ => .rejected (.obj (statusError 404))

/-- A probe that throws an error with status 500 at its first two calls
and resolves with a 200 response from the third call on. -/
def twice500ThenOk : Nat → ProbeOutcome AxiosResponse :=
  fun attempt =>
    if attempt < 3 then .rejected (.obj (statusError 500))
    else .resolved { status := 200, configUrl := some "https://example.com/" }

/-- A probe that throws, at every call, an axios timeout error: no
response was received, so the error has no `response`. -/
def alwaysTimeout : Nat → ProbeOutcome AxiosResponse :=
  fun _ => .rejected (.obj
    { code := some "ECONNABORTED", message := some "timeout of 30000ms exceeded",
      response := none })

/-- A probe that throws, at every call, an object with a `code` and no
`message`. -/
def alwaysMessageless : Nat → ProbeOutcome AxiosResponse :=
  fun _ => .rejected (.obj { code := some "ENOTFOUND", message := none, response := none })

/-- A server that answers every HEAD and every GET request with an
HTTP 500 response. -/
def always500Transport : Transport :=
  { head := fun _ => .resolved { status := 500, configUrl := some "https://example.com/" },
    get := fun _ => .resolved { status := 500, configUrl := some "https://example.com/" } }

/-- A server that never answers in time: every HEAD and GET request
fails with an axios timeout error that has no `response`. -/
def alwaysTimeoutTransport : Transport :=
  { head := alwaysTimeout, get := alwaysTimeout }

/-- A server that answers HEAD with 405 and GET with 200. -/
def headNotAllowedTransport : Transport :=
  { head := fun _ => .resolved { status := 405, configUrl := some "https://example.com/" },
    get := fun _ => .resolved { status := 200, configUrl := some "https://example.com/" } }

/-- Two entries. -/
def twoUrls : List UrlEntry :=
  [{ url := "https://example.com/a" }, { url := "https://example.com/b" }]

/-- A network on which every HEAD request is answered with status 200. -/
def okTransport : Transport :=
  { head := fun _ => .resolved { status := 200, configUrl := none },
    get := fun _ => .resolved { status := 200, configUrl := none } }

/-- Every pipeline sees `okTransport`; each check takes 50 milliseconds. -/
def okEnv : Nat → CheckEnv :=
  fun _ => { net := okTransport, startTime := 1000, endTime := 1050 }

/-- A callback that returns at every call. -/
def quietCallback : ProgressCallback := fun _ _ => .returned

/-- A callback that throws `new Error('boom')` at every call. -/
def throwingCallback : ProgressCallback :=
  fun _ _ => .threw (.obj { code := none, message := some "boom", response := none })

/-- A check that throws `new Error('fault')` for the entry at index 0
and yields a fixed record for every other entry. -/
def faultAtZero : Nat → UrlEntry → CheckResult :=
  fun index urlEntry =>
    if index = 0 then
      .rejected (.obj { code := none, message := some "fault", response := none })
    else
      .resolved
        { url := urlEntry.url, statusCode := .val 200, responseTime := some 50, attempts := 1,
          redirectUrl := .null, category := "success", description := some "Success",
          error := .null }

/-- A record with the given status and response time, as in the
repository's tests of the statistics. -/
def statRecord (url : String) (statusCode : JsStatus) (responseTime : Int) : OutcomeRecord :=
  { url := url, statusCode := statusCode, responseTime := some responseTime, attempts := 1,
    redirectUrl := .null, category := "", description := none, error := .null }

/-- The list `mockResults` of `tests/unit/stats-calculator.test.js`. -/
def mockResults : List OutcomeRecord :=
  [statRecord "https://example.com/1" (.val 200) 100,
   statRecord "https://example.com/2" (.val 200) 150,
   statRecord "https://example.com/3" (.val 200) 120,
   statRecord "https://example.com/4" (.val 404) 50,
   statRecord "https://example.com/5" (.val 500) 200]

/-- Records with the given response times and status 200, as in the
percentile test of `tests/integration.test.js`. -/
def timedResults (times : List Int) : List OutcomeRecord :=
  times.map (fun t => statRecord "https://example.com/" (.val 200) t)

/-- A network on which every request fails with an object that has a
`code` and no `message`. -/
def messagelessTransport : Transport :=
  { head := alwaysMessageless, get := alwaysMessageless }

/-- The records `checkUrl` returns, under the default configuration,
for a URL whose requests all time out and for a URL whose requests all
fail with an object without `message`: neither reached the server. -/
def unreachedResults : List OutcomeRecord :=
  [checkUrl defaultRetryConfig alwaysTimeoutTransport "https://example.com/slow" 1000 1250,
   checkUrl defaultRetryConfig messagelessTransport "https://example.com/down" 1000 1250]

/-- A callback that throws `null` when it is called for the entry
`https://example.com/a` and returns for every other entry. -/
def nullThrowingCallback : ProgressCallback :=
  fun _ progress => if progress.url = "https://example.com/a" then .threw .null else .returned

/-- A batch of 160 records of which 23 are successful (status 200) and
137 are not (status 404): 100 * 23 / 160 = 14.375 exactly. -/
def tieResults : List OutcomeRecord :=
  List.replicate 23 (statRecord "https://example.com/found" (.val 200) 100)
    ++ List.replicate 137 (statRecord "https://example.com/missing" (.val 404) 100)


/-- A run of three pipelines: the three calls of `urls.map`, three looks
at the queue, and the pipelines settling in the order of the input. -/
def threePipelines : List PoolEvent :=
  [.call 0, .call 1, .call 2, .dequeue, .dequeue, .dequeue, .settle 0, .settle 1, .settle 2]

/-- The states of the pool under `threePipelines` with `maxParallel = 2`. -/
def threePipelinesStates : List Limiter :=
  [{ concurrency := 2, pending := [], active := [], finished := [] },
   { concurrency := 2, pending := [0], active := [], finished := [] },
   { concurrency := 2, pending := [0, 1], active := [], finished := [] },
   { concurrency := 2, pending := [0, 1, 2], active := [], finished := [] },
   { concurrency := 2, pending := [1, 2], active := [0], finished := [] },
   { concurrency := 2, pending := [2], active := [0, 1], finished := [] },
   { concurrency := 2, pending := [2], active := [0, 1], finished := [] },
   { concurrency := 2, pending := [], active := [1, 2], finished := [0] },
   { concurrency := 2, pending := [], active := [2], finished := [0, 1] },
   { concurrency := 2, pending := [], active := [], finished := [0, 1, 2] }]


/-- The value `config.concurrency.maxParallel` of `config/default.js`
when the variable `MAX_PARALLEL_REQUESTS` is not set. -/
def defaultMaxParallel : Int := 10


/-! ## The classifier -/

/-- A non-zero numeric status is classified by its range alone; the
argument `error` is not inspected. -/
theorem classifyError_val {statusCode : Int} (error : Option JsError) (h : statusCode ≠ 0) :
    classifyError (.val statusCode) error = .ok (classifyStatus statusCode) := by
  simp [classifyError, h]

/-- C6: for every integer status in [200,600) and every error argument,
`classifyError` returns a decision whose category is `success` on
[200,400), `client_error` on [400,500) and `server_error` on [500,600). -/
theorem classifyError_category_of_status (statusCode : Int) (error : Option JsError)
    (hlo : 200 ≤ statusCode) (hhi : statusCode < 600) :
    ∃ d, classifyError (.val statusCode) error = .ok d ∧
      (statusCode < 400 → d.category = "success") ∧
      (400 ≤ statusCode → statusCode < 500 → d.category = "client_error") ∧
      (500 ≤ statusCode → d.category = "server_error") := by
  refine ⟨classifyStatus statusCode, classifyError_val error (by omega), ?_, ?_, ?_⟩
  · intro h
    unfold classifyStatus
    split_ifs <;> first | rfl | omega
  · intro h1 h2
    unfold classifyStatus
    split_ifs <;> first | rfl | omega
  · intro h
    unfold classifyStatus
    split_ifs <;> first | rfl | omega

/-- The statement of C6 at status 404 with no error argument. -/
theorem classifyError_category_of_status_witness :
    (200 : Int) ≤ 404 ∧ (404 : Int) < 600 ∧
    ∃ d, classifyError (.val 404) none = .ok d ∧
      ((404 : Int) < 400 → d.category = "success") ∧
      ((400 : Int) ≤ 404 → (404 : Int) < 500 → d.category = "client_error") ∧
      ((500 : Int) ≤ 404 → d.category = "server_error") :=
  ⟨by decide, by decide, classifyError_category_of_status 404 none (by decide) (by decide)⟩

/-- C7: for every integer status in [200,600) and every error argument,
the decision has `shouldRetry` true exactly when the status is 408, 429
or lies in [500,600). -/
theorem classifyError_shouldRetry_iff (statusCode : Int) (error : Option JsError)
    (hlo : 200 ≤ statusCode) (hhi : statusCode < 600) :
    ∃ d, classifyError (.val statusCode) error = .ok d ∧
      (d.shouldRetry = true ↔
        statusCode = 408 ∨ statusCode = 429 ∨ (500 ≤ statusCode ∧ statusCode < 600)) := by
  refine ⟨classifyStatus statusCode, classifyError_val error (by omega), ?_⟩
  unfold classifyStatus
  split_ifs <;> simp <;> omega

/-- The statement of C7 at status 429 with no error argument. -/
theorem classifyError_shouldRetry_iff_witness :
    (200 : Int) ≤ 429 ∧ (429 : Int) < 600 ∧
    ∃ d, classifyError (.val 429) none = .ok d ∧
      (d.shouldRetry = true ↔
        (429 : Int) = 408 ∨ (429 : Int) = 429 ∨ ((500 : Int) ≤ 429 ∧ (429 : Int) < 600)) :=
  ⟨by decide, by decide, classifyError_shouldRetry_iff 429 none (by decide) (by decide)⟩

/-- C8, as stated, fails at status 0: the test `!statusCode` sends the
number 0 down the branch for a missing status, so the decision is
`network_error` with the text "Unknown network error". -/
theorem classifyError_zero_not_unknown_status :
    classifyError (.val 0) none
        = .ok { category := "network_error", shouldRetry := false,
                description := "Unknown network error" } ∧
      ¬ ∃ d, classifyError (.val 0) none = .ok d ∧ d.category = "client_error" ∧
          d.shouldRetry = false ∧ d.description = "Unknown status code: 0" := by
  refine ⟨rfl, ?_⟩
  rintro ⟨d, hd, hc, -, -⟩
  have h : classifyError (.val 0) none
      = .ok { category := "network_error", shouldRetry := false,
              description := "Unknown network error" } := rfl
  rw [h] at hd
  injection hd with hd
  subst hd
  exact absurd hc (by decide)

/-- C8, amended: for every non-zero integer status outside [200,600)
and every error argument, the decision is `client_error`, not retried,
with the text "Unknown status code: " followed by the status. -/
theorem classifyError_unknown_status (statusCode : Int) (error : Option JsError)
    (hne : statusCode ≠ 0) (hout : statusCode < 200 ∨ 600 ≤ statusCode) :
    classifyError (.val statusCode) error
      = .ok { category := "client_error", shouldRetry := false,
              description := "Unknown status code: " ++ numToString statusCode } := by
  rw [classifyError_val error hne]
  unfold classifyStatus
  split_ifs <;> first | rfl | omega

/-- The amended C8 at status 999, and the text it gives there. -/
theorem classifyError_unknown_status_witness :
    (999 : Int) ≠ 0 ∧ ((999 : Int) < 200 ∨ (600 : Int) ≤ 999) ∧
    classifyError (.val 999) none
      = .ok { category := "client_error", shouldRetry := false,
              description := "Unknown status code: " ++ numToString 999 } ∧
    "Unknown status code: " ++ numToString 999 = "Unknown status code: 999" :=
  ⟨by decide, by decide,
    classifyError_unknown_status 999 none (by decide) (by decide), by decide⟩

/-- C9, as stated, fails for a message that contains "timeout" (here
through the host name): the timeout test comes first, so an error with
code ENOTFOUND and such a message is classified `timeout` and retried. -/
theorem classifyError_enotfound_timeout_message :
    classifyError .null
        (some { code := some "ENOTFOUND", message := some "getaddrinfo ENOTFOUND timeout.example.com", response := none })
        = .ok { category := "timeout", shouldRetry := true, description := "Request timeout" } ∧
      ¬ ∃ d, classifyError .null
          (some { code := some "ENOTFOUND", message := some "getaddrinfo ENOTFOUND timeout.example.com", response := none })
          = .ok d ∧ d.category = "network_error" ∧ d.shouldRetry = false := by
  refine ⟨rfl, ?_⟩
  rintro ⟨d, hd, hc, -⟩
  have h : classifyError .null
      (some { code := some "ENOTFOUND", message := some "getaddrinfo ENOTFOUND timeout.example.com", response := none })
      = .ok { category := "timeout", shouldRetry := true, description := "Request timeout" } := rfl
  rw [h] at hd
  injection hd with hd
  subst hd
  exact absurd hc (by decide)

/-- C9, amended: for a `null` status and an error whose code is
ENOTFOUND or ECONNREFUSED and whose message is a string that does not
contain "timeout", the decision is `network_error`, not retried, with
the text "Network error: " followed by the code. -/
theorem classifyError_network_code (error : JsError) (code message : String)
    (hcode : error.code = some code) (hnet : code = "ENOTFOUND" ∨ code = "ECONNREFUSED")
    (hmsg : error.message = some message) (hno : jsIncludes message "timeout" = false) :
    classifyError .null (some error)
      = .ok { category := "network_error", shouldRetry := false,
              description := "Network error: " ++ code } := by
  have hab : ¬ code = "ECONNABORTED" := by
    rcases hnet with h | h <;> subst h <;> decide
  simp [classifyError, classifyNoStatus, isTimeoutError, hcode, hmsg, hno, hab, hnet,
    ERROR_CATEGORIES.NETWORK_ERROR]

/-- The amended C9 at the error of the repository's DNS test. -/
theorem classifyError_network_code_witness :
    jsIncludes "getaddrinfo ENOTFOUND example.com" "timeout" = false ∧
    classifyError .null
      (some { code := some "ENOTFOUND", message := some "getaddrinfo ENOTFOUND example.com",
              response := none })
      = .ok { category := "network_error", shouldRetry := false,
              description := "Network error: " ++ "ENOTFOUND" } :=
  ⟨by decide,
    classifyError_network_code
      { code := some "ENOTFOUND", message := some "getaddrinfo ENOTFOUND example.com",
        response := none }
      "ENOTFOUND" "getaddrinfo ENOTFOUND example.com" rfl (Or.inl rfl) rfl (by decide)⟩

/-- C10 fails on the code: for a `null` status and an error object with
a code other than ECONNABORTED and no `message`, the expression
`error.message.includes('timeout')` raises a `TypeError`, so
`classifyError` returns no decision. -/
theorem classifyError_raises_without_message :
    classifyError .null (some { code := some "ENOTFOUND", message := none, response := none })
      = .error (.typeError "Cannot read properties of undefined (reading 'includes')") ∧
    ¬ ∃ d, classifyError .null
        (some { code := some "ENOTFOUND", message := none, response := none }) = .ok d := by
  refine ⟨rfl, ?_⟩
  rintro ⟨d, hd⟩
  have h : classifyError .null
      (some { code := some "ENOTFOUND", message := none, response := none })
      = .error (.typeError "Cannot read properties of undefined (reading 'includes')") := rfl
  rw [h] at hd
  cases hd

/-! ## The retry loop -/

/-- The loop body asks for another pass exactly when the probe threw,
the `catch` block obtained a decision with `shouldRetry`, and the
counter is not `maxRetries + 1`. -/
theorem attemptBody_retry_iff {ρ : Type} (fn : Nat → ProbeOutcome ρ) (url : String)
    (maxRetries : Int) (attempt : Nat) :
    attemptBody fn url maxRetries attempt = .retry ↔
      ∃ error status decision, fn attempt = .rejected error ∧
        classifyThrown error = .ok (status, decision) ∧ decision.shouldRetry = true ∧
        (attempt : Int) ≠ maxRetries + 1 := by
  unfold attemptBody
  cases hfn : fn attempt with
  | resolved result => simp
  | rejected error =>
    cases hc : classifyThrown error with
    | error x => simp [hc]
    | ok p =>
      obtain ⟨status, decision⟩ := p
      by_cases hr : decision.shouldRetry = true <;>
        by_cases ha : (attempt : Int) = maxRetries + 1 <;> simp [hc, hr, ha]
      exact ⟨status, decision, ⟨rfl, rfl⟩, hr⟩

/-- The shape of a run of the loop over the counter values
`a, a + 1, ..., a + n - 1`: the probe is called at `a, ..., a + k - 1`
for some `k ≤ n`, every pass but the last asks for a retry, and either
the last pass leaves the function with the loop's outcome, or all `n`
passes asked for a retry and the loop ends with `undefined`. -/
theorem forLoop_range {ρ : Type} (body : Nat → Step ρ) (n : Nat) :
    ∀ a : Nat, ∃ k, k ≤ n ∧ (forLoop body (List.range' a n)).2 = List.range' a k ∧
      (∀ j, j + 1 < k → body (a + j) = .retry) ∧
      ((0 < k ∧ body (a + (k - 1)) = .finish (forLoop body (List.range' a n)).1) ∨
       (k = n ∧ (forLoop body (List.range' a n)).1 = .returnedUndefined ∧
          ∀ j, j < k → body (a + j) = .retry)) := by
  induction n with
  | zero =>
    intro a
    exact ⟨0, le_refl 0, rfl, fun j hj => absurd hj (by omega),
      Or.inr ⟨rfl, rfl, fun j hj => absurd hj (by omega)⟩⟩
  | succ n ih =>
    intro a
    cases hb : body a with
    | finish out =>
      refine ⟨1, by omega, ?_, fun j hj => absurd hj (by omega), Or.inl ⟨by omega, ?_⟩⟩
      · simp [List.range'_succ, forLoop, hb]
      · simp [List.range'_succ, forLoop, hb]
    | retry =>
      obtain ⟨k, hk, hcalls, hretry, hlast⟩ := ih (a + 1)
      have hfst : (forLoop body (List.range' a (n + 1))).1
          = (forLoop body (List.range' (a + 1) n)).1 := by
        simp [List.range'_succ, forLoop, hb]
      have hsnd : (forLoop body (List.range' a (n + 1))).2
          = a :: (forLoop body (List.range' (a + 1) n)).2 := by
        simp [List.range'_succ, forLoop, hb]
      have hstep : ∀ j, body (a + 1 + j) = body (a + (j + 1)) := by
        intro j
        congr 1
        omega
      refine ⟨k + 1, by omega, ?_, ?_, ?_⟩
      · rw [hsnd, hcalls, List.range'_succ]
      · intro j hj
        cases j with
        | zero => simpa using hb
        | succ j => rw [← hstep]; exact hretry j (by omega)
      · rcases hlast with ⟨hpos, hfin⟩ | ⟨hkn, hund, hall⟩
        · left
          refine ⟨by omega, ?_⟩
          rw [hfst, ← hfin]
          congr 1
          omega
        · right
          refine ⟨by omega, by rw [hfst, hund], ?_⟩
          intro j hj
          cases j with
          | zero => simpa using hb
          | succ j => rw [← hstep]; exact hall j (by omega)

/-- The `catch` block obtains a status and a decision exactly when
reading `error.response?.status` and calling `classifyError` both succeed. -/
theorem classifyThrown_ok_iff (error : Thrown) (status : JsStatus) (decision : RetryDecision) :
    classifyThrown error = .ok (status, decision) ↔
      error.responseStatus = .ok status ∧
        classifyError status error.asErrorArg = .ok decision := by
  unfold classifyThrown
  cases hs : error.responseStatus with
  | error x => simp
  | ok s =>
    cases hd : classifyError s error.asErrorArg with
    | error x =>
      simp only [hd]
      constructor
      · intro h
        cases h
      · rintro ⟨h1, h2⟩
        injection h1 with h1
        subst h1
        rw [hd] at h2
        cases h2
    | ok d =>
      simp only [hd]
      constructor
      · intro h
        injection h with h
        injection h with h1 h2
        subst h1
        subst h2
        exact ⟨rfl, hd⟩
      · rintro ⟨h1, h2⟩
        injection h1 with h1
        subst h1
        rw [hd] at h2
        injection h2 with h2
        subst h2
        rfl

/-- The shape of a run of `executeWithRetry`: the probe is called at the
attempts `1, ..., k`; every attempt before the `k`-th asked for a retry;
and either the loop never ran (`maxRetries + 1 < 1`, the function returns
`undefined`) or the `k`-th pass through the body left the function with
the outcome of the run. -/
theorem executeWithRetry_shape {ρ : Type} (config : RetryConfig) (fn : Nat → ProbeOutcome ρ)
    (url : String) (options : RetryOptions) :
    ∃ k : Nat, (executeWithRetry config fn url options).2 = List.range' 1 k ∧
      k ≤ (effectiveMaxRetries config options + 1).toNat ∧
      (∀ a, 1 ≤ a → a < k →
        attemptBody fn url (effectiveMaxRetries config options) a = .retry) ∧
      ((k = 0 ∧ effectiveMaxRetries config options + 1 < 1 ∧
          (executeWithRetry config fn url options).1 = .returnedUndefined) ∨
       (0 < k ∧ attemptBody fn url (effectiveMaxRetries config options) k
          = .finish (executeWithRetry config fn url options).1)) := by
  obtain ⟨k, hk, hcalls, hretry, hlast⟩ :=
    forLoop_range (attemptBody fn url (effectiveMaxRetries config options))
      (effectiveMaxRetries config options + 1).toNat 1
  refine ⟨k, hcalls, hk, ?_, ?_⟩
  · intro a ha1 hak
    have h := hretry (a - 1) (by omega)
    have e : 1 + (a - 1) = a := by omega
    rwa [e] at h
  · rcases hlast with ⟨hpos, hfin⟩ | ⟨hkn, hund, hall⟩
    · right
      have e : 1 + (k - 1) = k := by omega
      rw [e] at hfin
      exact ⟨hpos, hfin⟩
    · left
      rcases Nat.eq_zero_or_pos k with hk0 | hkpos
      · exact ⟨hk0, by omega, hund⟩
      · exfalso
        have h := hall (k - 1) (by omega)
        have e : 1 + (k - 1) = k := by omega
        rw [e] at h
        obtain ⟨_, _, _, _, _, _, hne⟩ := (attemptBody_retry_iff fn url _ k).mp h
        omega

/-- C1: for every probe and every `maxRetries ≥ 0`: after a failed
attempt `a` the probe is called again (at `a + 1`) exactly when the
decision `classifyError(error.response?.status, error)` has `shouldRetry`
and `a < maxRetries + 1`; the probe is called at attempts `1, 2, ...` in
turn and at most `maxRetries + 1` times; and a probe that always fails
with status 404 is called once and the failure reports `attempts = 1`
with category `client_error`. -/
theorem executeWithRetry_retries_iff {ρ : Type} (config : RetryConfig)
    (fn : Nat → ProbeOutcome ρ) (url : String) (options : RetryOptions)
    (hmax : 0 ≤ effectiveMaxRetries config options) :
    (∀ a error, a ∈ (executeWithRetry config fn url options).2 → fn a = .rejected error →
      ((a + 1) ∈ (executeWithRetry config fn url options).2 ↔
        (∃ status decision, error.responseStatus = .ok status ∧
            classifyError status error.asErrorArg = .ok decision ∧
            decision.shouldRetry = true) ∧
          (a : Int) < effectiveMaxRetries config options + 1)) ∧
    (executeWithRetry config fn url options).2
      = List.range' 1 (executeWithRetry config fn url options).2.length ∧
    ((executeWithRetry config fn url options).2.length : Int)
      ≤ effectiveMaxRetries config options + 1 ∧
    (∀ e404 : JsError, e404.response = some (.val 404) → (∀ a, fn a = .rejected (.obj e404)) →
      (executeWithRetry config fn url options).2 = [1] ∧
      ∃ record, (executeWithRetry config fn url options).1 = .thrown record ∧
        record.attempts = 1 ∧ record.category = "client_error") := by
  obtain ⟨k, hcalls, hk, hretry, hlast⟩ := executeWithRetry_shape config fn url options
  have hkpos : 0 < k := by
    rcases hlast with ⟨_, h, _⟩ | ⟨h, _⟩
    · omega
    · exact h
  have hfin : attemptBody fn url (effectiveMaxRetries config options) k
      = .finish (executeWithRetry config fn url options).1 := by
    rcases hlast with ⟨_, h, _⟩ | ⟨_, h⟩
    · omega
    · exact h
  refine ⟨?_, ?_, ?_, ?_⟩
  · intro a error ha hfn
    rw [hcalls, List.mem_range'_1] at ha
    rw [hcalls, List.mem_range'_1]
    constructor
    · intro hnext
      obtain ⟨error', status, decision, hfn', hc, hr, _⟩ :=
        (attemptBody_retry_iff fn url _ a).mp (hretry a ha.1 (by omega))
      rw [hfn] at hfn'
      injection hfn' with hfn'
      subst hfn'
      obtain ⟨hs, hd⟩ := (classifyThrown_ok_iff error status decision).mp hc
      exact ⟨⟨status, decision, hs, hd, hr⟩, by omega⟩
    · rintro ⟨⟨status, decision, hs, hd, hr⟩, hlt⟩
      have hbody : attemptBody fn url (effectiveMaxRetries config options) a = .retry :=
        (attemptBody_retry_iff fn url _ a).mpr
          ⟨error, status, decision, hfn,
            (classifyThrown_ok_iff error status decision).mpr ⟨hs, hd⟩, hr, by omega⟩
      have hak : a ≠ k := by
        intro h
        subst h
        rw [hbody] at hfin
        cases hfin
      omega
  · rw [hcalls, List.length_range']
  · rw [hcalls, List.length_range']
    omega
  · intro e404 h404 hfn
    have hbody : ∀ a, attemptBody fn url (effectiveMaxRetries config options) a
        = .finish (.thrown
            { url := url, statusCode := .val 404, attempts := a,
              error := "Not Found", category := "client_error" }) := by
      intro a
      simp [attemptBody, hfn a, classifyThrown, Thrown.responseStatus, h404, classifyError,
        classifyStatus, ERROR_CATEGORIES.CLIENT_ERROR, HTTP_ERROR_DESCRIPTIONS]
    have hk1 : k = 1 := by
      by_contra hne
      have h := hretry 1 (le_refl 1) (by omega)
      rw [hbody 1] at h
      cases h
    subst hk1
    have h := hfin
    rw [hbody 1] at h
    injection h with h
    exact ⟨hcalls, _, h.symm, rfl, rfl⟩

/-- The statement of C1 for the default configuration and a probe that
always fails with status 404: one call, and a failure with `attempts = 1`. -/
theorem executeWithRetry_retries_iff_witness :
    0 ≤ effectiveMaxRetries defaultRetryConfig RetryOptions.empty ∧
    (executeWithRetry defaultRetryConfig always404 "https://example.com/"
      RetryOptions.empty).2 = [1] ∧
    ∃ record, (executeWithRetry defaultRetryConfig always404 "https://example.com/"
        RetryOptions.empty).1 = .thrown record ∧
      record.attempts = 1 ∧ record.category = "client_error" :=
  ⟨by decide,
    (executeWithRetry_retries_iff defaultRetryConfig always404 "https://example.com/"
      RetryOptions.empty (by decide)).2.2.2 (statusError 404) rfl (fun _ => rfl)⟩

/-- C3: if the probe fails with a retryable decision at the attempts
`1, ..., k - 1` and resolves at attempt `k`, with `1 ≤ k ≤ maxRetries + 1`,
then `executeWithRetry` calls the probe at the attempts `1, ..., k` and
returns the probe's result with `attempts = k`. -/
theorem executeWithRetry_succeeds_at {ρ : Type} (config : RetryConfig)
    (fn : Nat → ProbeOutcome ρ) (url : String) (options : RetryOptions) (k : Nat) (result : ρ)
    (hk1 : 1 ≤ k) (hk : (k : Int) ≤ effectiveMaxRetries config options + 1)
    (hfail : ∀ a, 1 ≤ a → a < k → ∃ error status decision, fn a = .rejected error ∧
      error.responseStatus = .ok status ∧
      classifyError status error.asErrorArg = .ok decision ∧ decision.shouldRetry = true)
    (hok : fn k = .resolved result) :
    executeWithRetry config fn url options = (.returned result k, List.range' 1 k) := by
  obtain ⟨k', hcalls, hk', hretry, hlast⟩ := executeWithRetry_shape config fn url options
  have hbodyk : attemptBody fn url (effectiveMaxRetries config options) k
      = .finish (.returned result k) := by
    simp [attemptBody, hok]
  have hbody : ∀ a, 1 ≤ a → a < k →
      attemptBody fn url (effectiveMaxRetries config options) a = .retry := by
    intro a ha1 hak
    obtain ⟨error, status, decision, hfn, hs, hd, hr⟩ := hfail a ha1 hak
    exact (attemptBody_retry_iff fn url _ a).mpr
      ⟨error, status, decision, hfn,
        (classifyThrown_ok_iff error status decision).mpr ⟨hs, hd⟩, hr, by omega⟩
  rcases hlast with ⟨_, h, _⟩ | ⟨hpos, hfin⟩
  · omega
  · have hkk : k' = k := by
      rcases Nat.lt_trichotomy k' k with hlt | heq | hgt
      · rw [hbody k' hpos hlt] at hfin
        cases hfin
      · exact heq
      · have h := hretry k hk1 hgt
        rw [hbodyk] at h
        cases h
    subst hkk
    rw [hbodyk] at hfin
    injection hfin with hfin
    exact Prod.ext hfin.symm hcalls

/-- The statement of C3 for two failures with status 500 followed by a
success, with `maxRetries = 3`: the result comes back with `attempts = 3`. -/
theorem executeWithRetry_succeeds_at_witness :
    executeWithRetry defaultRetryConfig twice500ThenOk "https://example.com/"
        { maxRetries := some 3, retryDelay := none }
      = (.returned { status := 200, configUrl := some "https://example.com/" } 3, [1, 2, 3]) :=
  executeWithRetry_succeeds_at defaultRetryConfig twice500ThenOk "https://example.com/"
    { maxRetries := some 3, retryDelay := none } 3
    { status := 200, configUrl := some "https://example.com/" } (by decide) (by decide)
    (fun a h1 h3 => by
      have ha : a = 1 ∨ a = 2 := by omega
      rcases ha with ha | ha <;> subst ha <;>
        exact ⟨.obj (statusError 500), .val 500, classifyStatus 500, rfl, rfl, rfl, rfl⟩)
    rfl

/-- When `executeWithRetry` gives up with a failure record, the record
was built in the last pass through the loop body: the probe was called
at the attempts `1, ..., record.attempts`, its last call threw, and the
record holds the status `error.response?.status` of that throw, the
category and description of the decision made for it, and the `url`
argument. The description is stored in the field `error`, a string. -/
theorem executeWithRetry_thrown_record {ρ : Type} (config : RetryConfig)
    (fn : Nat → ProbeOutcome ρ) (url : String) (options : RetryOptions)
    (record : FailureRecord)
    (h : (executeWithRetry config fn url options).1 = .thrown record) :
    ∃ error decision, fn record.attempts = .rejected error ∧
      (executeWithRetry config fn url options).2 = List.range' 1 record.attempts ∧
      record.attempts = (executeWithRetry config fn url options).2.length ∧
      0 < record.attempts ∧
      error.responseStatus = .ok record.statusCode ∧
      classifyError record.statusCode error.asErrorArg = .ok decision ∧
      record.category = decision.category ∧ record.error = decision.description ∧
      record.url = url ∧
      (decision.shouldRetry = false ∨
        (record.attempts : Int) = effectiveMaxRetries config options + 1) := by
  obtain ⟨k, hcalls, _, _, hlast⟩ := executeWithRetry_shape config fn url options
  rcases hlast with ⟨_, _, hund⟩ | ⟨hpos, hfin⟩
  · rw [h] at hund
    cases hund
  · rw [h] at hfin
    cases hfn : fn k with
    | resolved result =>
      simp [attemptBody, hfn] at hfin
    | rejected error =>
      cases hc : classifyThrown error with
      | error x =>
        simp [attemptBody, hfn, hc] at hfin
      | ok p =>
        obtain ⟨status, decision⟩ := p
        obtain ⟨hs, hd⟩ := (classifyThrown_ok_iff error status decision).mp hc
        simp only [attemptBody, hfn, hc] at hfin
        by_cases hcond : (!decision.shouldRetry ||
            decide ((k : Int) = effectiveMaxRetries config options + 1)) = true
        · simp only [hcond, if_true] at hfin
          injection hfin with hfin
          injection hfin with hfin
          subst hfin
          refine ⟨error, decision, hfn, hcalls, ?_, hpos, hs, hd, rfl, rfl, rfl, ?_⟩
          · rw [hcalls, List.length_range']
          · simpa using hcond
        · simp [hcond] at hfin

/-- C5 fails on the code for a transport failure: the probe throws an
axios timeout error that has no `response`, `maxRetries` is 0, and the
record thrown carries the status `undefined`, not `null`. -/
theorem executeWithRetry_transport_failure_status :
    executeWithRetry defaultRetryConfig alwaysTimeout "https://example.com/"
        { maxRetries := some 0, retryDelay := none }
      = (.thrown { url := "https://example.com/", statusCode := .undefined, attempts := 1,
                   error := "Request timeout", category := "timeout" }, [1]) ∧
    (JsOpt.undefined : JsStatus) ≠ JsOpt.null :=
  ⟨rfl, by decide⟩

/-- C4 fails on the code at two inputs. With `maxRetries = -1` the loop
never runs: the probe is not called and the function returns `undefined`.
With a probe that throws an object without `message`, `classifyError`
raises a `TypeError` inside the `catch` block and that exception leaves
`executeWithRetry` after one call of the probe. -/
theorem executeWithRetry_unstructured_outcomes :
    executeWithRetry defaultRetryConfig always404 "https://example.com/"
        { maxRetries := some (-1), retryDelay := none }
      = (.returnedUndefined, []) ∧
    executeWithRetry defaultRetryConfig alwaysMessageless "https://example.com/"
        RetryOptions.empty
      = (.raised (.typeError "Cannot read properties of undefined (reading 'includes')"), [1]) :=
  ⟨rfl, rfl⟩

/-- C2 fails on the code: against a server that answers every request
with an HTTP 500 response, under the default configuration
(`maxRetries = 3`), the probe resolves with the response, so
`executeWithRetry` calls it once and returns; `checkUrl` reports
`attempts = 1` (not 4), category `server_error` and `error = null`. -/
theorem checkUrl_status_500_single_attempt :
    (executeWithRetry defaultRetryConfig (checkUrlProbe always500Transport)
        "https://example.com/" RetryOptions.empty)
      = (.returned { status := 500, configUrl := some "https://example.com/" } 1, [1]) ∧
    checkUrl defaultRetryConfig always500Transport "https://example.com/" 1000 1250
      = { url := "https://example.com/", statusCode := .val 500, responseTime := some 250,
          attempts := 1, redirectUrl := .null, category := "server_error",
          description := some "Internal Server Error", error := .null } :=
  ⟨rfl, by decide⟩

/-! ## The classifier on transport errors -/

/-- The search `includesChars` finds `sub` exactly when `sub` occurs in
`s` as a contiguous run. -/
theorem includesChars_iff (s sub : List Char) :
    includesChars s sub = true ↔ ∃ before after, s = before ++ sub ++ after := by
  induction s with
  | nil =>
    simp only [includesChars, List.isEmpty_iff]
    constructor
    · intro h
      exact ⟨[], [], by simp [h]⟩
    · rintro ⟨before, after, h⟩
      have h' := congrArg List.length h
      simp only [List.length_nil, List.length_append] at h'
      exact List.eq_nil_of_length_eq_zero (by omega)
  | cons c s ih =>
    simp only [includesChars, Bool.or_eq_true, List.isPrefixOf_iff_prefix, ih]
    constructor
    · rintro (⟨after, h⟩ | ⟨before, after, h⟩)
      · exact ⟨[], after, by simp [h]⟩
      · exact ⟨c :: before, after, by simp [h]⟩
    · rintro ⟨before, after, h⟩
      cases before with
      | nil => exact Or.inl ⟨after, by simpa using h.symm⟩
      | cons b before =>
        simp only [List.cons_append, List.cons.injEq] at h
        exact Or.inr ⟨before, after, h.2⟩

/-- C11: for a `null` status and every error whose code is ECONNABORTED,
or whose message is a string in which "timeout" occurs, `classifyError`
returns category `timeout`, `shouldRetry` true and the description
"Request timeout". -/
theorem classifyError_timeout (error : JsError)
    (h : error.code = some "ECONNABORTED" ∨
      ∃ message before after, error.message = some message ∧
        message.data = before ++ "timeout".data ++ after) :
    classifyError .null (some error)
      = .ok { category := "timeout", shouldRetry := true, description := "Request timeout" } := by
  have ht : isTimeoutError error = .ok true := by
    unfold isTimeoutError
    by_cases hc : error.code = some "ECONNABORTED"
    · simp [hc]
    · rcases h with h | ⟨message, before, after, hm, hsub⟩
      · exact absurd h hc
      · have hi : jsIncludes message "timeout" = true :=
          (includesChars_iff _ _).mpr ⟨before, after, hsub⟩
        simp [hc, hm, hi]
  simp [classifyError, classifyNoStatus, ht, ERROR_CATEGORIES.TIMEOUT]

/-- The statement of C11 at the error of the repository's timeout test
(code ECONNABORTED) and at an error without code whose message
contains "timeout". -/
theorem classifyError_timeout_witness :
    classifyError .null
        (some { code := some "ECONNABORTED", message := some "timeout", response := none })
      = .ok { category := "timeout", shouldRetry := true, description := "Request timeout" } ∧
    classifyError .null
        (some { code := none, message := some "a timeout occurred", response := none })
      = .ok { category := "timeout", shouldRetry := true, description := "Request timeout" } :=
  ⟨classifyError_timeout _ (Or.inl rfl),
    classifyError_timeout _ (Or.inr ⟨"a timeout occurred", "a ".data, " occurred".data, rfl, rfl⟩)⟩

/-- With no error argument and a `null` status the decision is the
generic one. -/
theorem classifyError_null_no_error :
    classifyError .null none
      = .ok { category := "network_error", shouldRetry := false,
              description := "Unknown network error" } := rfl

/-- For a `null` status and an error whose message is a string without
"timeout" and whose code is none of ECONNABORTED, ENOTFOUND and
ECONNREFUSED, the decision is the generic one. -/
theorem classifyError_generic_network_error (error : JsError) (message : String)
    (hmsg : error.message = some message) (hno : jsIncludes message "timeout" = false)
    (hab : error.code ≠ some "ECONNABORTED") (hnf : error.code ≠ some "ENOTFOUND")
    (hcr : error.code ≠ some "ECONNREFUSED") :
    classifyError .null (some error)
      = .ok { category := "network_error", shouldRetry := false,
              description := "Unknown network error" } := by
  simp [classifyError, classifyNoStatus, isTimeoutError, hmsg, hno, hab, hnf, hcr,
    ERROR_CATEGORIES.NETWORK_ERROR]

/-- C12 fails on the code: for a `null` status and an error object with
the code EPIPE and no `message` (it signals neither a timeout nor
ENOTFOUND/ECONNREFUSED), `error.message.includes('timeout')` raises a
`TypeError`; no generic decision is returned. -/
theorem classifyError_generic_raises_without_message :
    classifyError .null (some { code := some "EPIPE", message := none, response := none })
      = .error (.typeError "Cannot read properties of undefined (reading 'includes')") :=
  rfl

/-! ## The backoff delay -/

/-- The bounds of the sleep for any cap that is not negative: the jitter
lies between 0 and a tenth of the capped delay, and the sleep between
the capped delay and eleven tenths of the cap. -/
theorem totalDelay_bounds_of_cap_nonneg
    (retryDelay backoffMultiplier maxBackoffDelay random : ℚ)
    (attempt : Nat) (hdelay : 0 ≤ retryDelay) (hmult : 0 ≤ backoffMultiplier)
    (hcap : 0 ≤ maxBackoffDelay) (hr0 : 0 ≤ random) (hr1 : random < 1) :
    totalDelay retryDelay backoffMultiplier maxBackoffDelay attempt random
      = exponentialDelay retryDelay backoffMultiplier maxBackoffDelay attempt
        + jitter random (exponentialDelay retryDelay backoffMultiplier maxBackoffDelay attempt) ∧
    exponentialDelay retryDelay backoffMultiplier maxBackoffDelay attempt
      = min (retryDelay * backoffMultiplier ^ (attempt - 1)) maxBackoffDelay ∧
    0 ≤ jitter random (exponentialDelay retryDelay backoffMultiplier maxBackoffDelay attempt) ∧
    jitter random (exponentialDelay retryDelay backoffMultiplier maxBackoffDelay attempt)
      ≤ 1 / 10 * exponentialDelay retryDelay backoffMultiplier maxBackoffDelay attempt ∧
    exponentialDelay retryDelay backoffMultiplier maxBackoffDelay attempt
      ≤ totalDelay retryDelay backoffMultiplier maxBackoffDelay attempt random ∧
    totalDelay retryDelay backoffMultiplier maxBackoffDelay attempt random
      ≤ 11 / 10 * maxBackoffDelay := by
  have hd0 : 0 ≤ exponentialDelay retryDelay backoffMultiplier maxBackoffDelay attempt :=
    le_min (mul_nonneg hdelay (pow_nonneg hmult _)) hcap
  have hdcap : exponentialDelay retryDelay backoffMultiplier maxBackoffDelay attempt
      ≤ maxBackoffDelay := min_le_right _ _
  have hj0 : 0 ≤ jitter random
      (exponentialDelay retryDelay backoffMultiplier maxBackoffDelay attempt) := by
    unfold jitter
    positivity
  have hj1 : jitter random
      (exponentialDelay retryDelay backoffMultiplier maxBackoffDelay attempt)
      ≤ 1 / 10 * exponentialDelay retryDelay backoffMultiplier maxBackoffDelay attempt := by
    unfold jitter
    nlinarith [mul_nonneg (sub_nonneg.mpr hr1.le) hd0]
  refine ⟨rfl, rfl, hj0, hj1, ?_, ?_⟩
  · unfold totalDelay
    linarith
  · unfold totalDelay
    linarith

/-- C13: with the cap `maxBackoffDelay` of `config/default.js` (30000),
for `retryDelay ≥ 0`, `backoffMultiplier ≥ 0`, a failed attempt `a` and
`0 ≤ Math.random() < 1`, the sleep is `d + j` with
`d = min(retryDelay * backoffMultiplier^(a-1), maxBackoffDelay)` and
`0 ≤ j ≤ 0.1 * d`; it is at least `d` and at most
`1.1 * maxBackoffDelay`. -/
theorem totalDelay_bounds (retryDelay backoffMultiplier random : ℚ) (attempt : Nat)
    (hdelay : 0 ≤ retryDelay) (hmult : 0 ≤ backoffMultiplier)
    (hr0 : 0 ≤ random) (hr1 : random < 1) :
    totalDelay retryDelay backoffMultiplier defaultRetryConfig.maxBackoffDelay attempt random
      = exponentialDelay retryDelay backoffMultiplier defaultRetryConfig.maxBackoffDelay attempt
        + jitter random
            (exponentialDelay retryDelay backoffMultiplier defaultRetryConfig.maxBackoffDelay
              attempt) ∧
    exponentialDelay retryDelay backoffMultiplier defaultRetryConfig.maxBackoffDelay attempt
      = min (retryDelay * backoffMultiplier ^ (attempt - 1))
          (defaultRetryConfig.maxBackoffDelay : ℚ) ∧
    0 ≤ jitter random
        (exponentialDelay retryDelay backoffMultiplier defaultRetryConfig.maxBackoffDelay
          attempt) ∧
    jitter random
        (exponentialDelay retryDelay backoffMultiplier defaultRetryConfig.maxBackoffDelay
          attempt)
      ≤ 1 / 10 * exponentialDelay retryDelay backoffMultiplier
          defaultRetryConfig.maxBackoffDelay attempt ∧
    exponentialDelay retryDelay backoffMultiplier defaultRetryConfig.maxBackoffDelay attempt
      ≤ totalDelay retryDelay backoffMultiplier defaultRetryConfig.maxBackoffDelay attempt
          random ∧
    totalDelay retryDelay backoffMultiplier defaultRetryConfig.maxBackoffDelay attempt random
      ≤ 11 / 10 * (defaultRetryConfig.maxBackoffDelay : ℚ) :=
  totalDelay_bounds_of_cap_nonneg retryDelay backoffMultiplier
    defaultRetryConfig.maxBackoffDelay random attempt hdelay hmult
    (by norm_num [defaultRetryConfig]) hr0 hr1

/-- The statement of C13 for the default configuration after the third
failed attempt, with `Math.random()` giving 1/2: the sleep is
4000 + 200 milliseconds, at least the delay 4000 and at most 33000. -/
theorem totalDelay_bounds_witness :
    retrySleep defaultRetryConfig RetryOptions.empty 3 (1 / 2)
      = totalDelay 1000 2 defaultRetryConfig.maxBackoffDelay 3 (1 / 2) ∧
    totalDelay 1000 2 defaultRetryConfig.maxBackoffDelay 3 (1 / 2) = 4200 ∧
    exponentialDelay 1000 2 defaultRetryConfig.maxBackoffDelay 3
      ≤ totalDelay 1000 2 defaultRetryConfig.maxBackoffDelay 3 (1 / 2) ∧
    totalDelay 1000 2 defaultRetryConfig.maxBackoffDelay 3 (1 / 2)
      ≤ 11 / 10 * (defaultRetryConfig.maxBackoffDelay : ℚ) :=
  ⟨by norm_num [retrySleep, effectiveRetryDelay, defaultRetryConfig, RetryOptions.empty],
    by norm_num [totalDelay, exponentialDelay, jitter, defaultRetryConfig],
    (totalDelay_bounds 1000 2 (1 / 2) 3 (by norm_num) (by norm_num)
      (by norm_num) (by norm_num)).2.2.2.2.1,
    (totalDelay_bounds 1000 2 (1 / 2) 3 (by norm_num) (by norm_num)
      (by norm_num) (by norm_num)).2.2.2.2.2⟩

/-! ## The URL checker -/

/-- The traced probe yields what the probe of `checkUrl` yields. -/
theorem checkUrlProbeTraced_outcome (net : Transport) (url : String) (attempt : Nat) :
    (checkUrlProbeTraced net url attempt).2 = checkUrlProbe net attempt := by
  unfold checkUrlProbeTraced checkUrlProbe
  cases net.head attempt with
  | rejected error => rfl
  | resolved response => by_cases h : response.status = 405 <;> simp [h]

/-- C19: within one probe attempt, when HEAD answers with status 405 a
GET to the same URL follows and the attempt yields what the GET yields;
when HEAD answers with any other status no GET is issued and the attempt
yields the HEAD response. -/
theorem checkUrlProbe_head_then_get (net : Transport) (url : String) (attempt : Nat)
    (response : AxiosResponse) (hhead : net.head attempt = .resolved response) :
    (response.status = 405 →
      checkUrlProbeTraced net url attempt
        = ([{ method := .HEAD, url := url }, { method := .GET, url := url }],
            net.get attempt) ∧
      checkUrlProbe net attempt = net.get attempt) ∧
    (response.status ≠ 405 →
      checkUrlProbeTraced net url attempt
        = ([{ method := .HEAD, url := url }], .resolved response) ∧
      checkUrlProbe net attempt = .resolved response) := by
  constructor
  · intro h
    simp [checkUrlProbeTraced, checkUrlProbe, hhead, h]
  · intro h
    simp [checkUrlProbeTraced, checkUrlProbe, hhead, h]

/-- The statement of C19 for a server that answers HEAD with 405 and GET
with 200: HEAD then GET, and the attempt yields the GET response. -/
theorem checkUrlProbe_head_then_get_witness :
    checkUrlProbeTraced headNotAllowedTransport "https://example.com/" 1
      = ([{ method := .HEAD, url := "https://example.com/" },
          { method := .GET, url := "https://example.com/" }],
          .resolved { status := 200, configUrl := some "https://example.com/" }) ∧
    checkUrlProbe headNotAllowedTransport 1
      = .resolved { status := 200, configUrl := some "https://example.com/" } :=
  (checkUrlProbe_head_then_get headNotAllowedTransport "https://example.com/" 1
    { status := 405, configUrl := some "https://example.com/" } rfl).1 rfl

/-- C18 fails on the code: for a URL whose every request times out,
under the default configuration, `checkUrl` returns the object thrown by
`executeWithRetry` as it is. It has no `responseTime`, no `redirectUrl`
and no `description`, and its `statusCode` is `undefined`, not `null`. -/
theorem checkUrl_timeout_record_incomplete :
    checkUrl defaultRetryConfig alwaysTimeoutTransport "https://example.com/" 1000 1250
      = { url := "https://example.com/", statusCode := .undefined, responseTime := none,
          attempts := 4, redirectUrl := .undefined, category := "timeout",
          description := none, error := .val "Request timeout" } := by
  decide

/-! ## The parallel executor -/

/-- The tasks settle in the order of the schedule. -/
theorem runPipelines_indices (total : Nat) (onProgress : Option ProgressCallback)
    (check : Nat → UrlEntry → CheckResult) (schedule : List (Nat × UrlEntry)) :
    ∀ calls : List Progress,
      (runPipelines total onProgress check schedule calls).1.map Prod.fst
        = schedule.map Prod.fst := by
  induction schedule with
  | nil => intro calls; rfl
  | cons p rest ih =>
    intro calls
    obtain ⟨index, urlEntry⟩ := p
    simp only [runPipelines, List.map_cons, ih]

/-- Every settled task is the pipeline of a scheduled entry, run after
some calls of the callback. -/
theorem runPipelines_mem (total : Nat) (onProgress : Option ProgressCallback)
    (check : Nat → UrlEntry → CheckResult) (schedule : List (Nat × UrlEntry)) :
    ∀ (calls : List Progress) (index : Nat) (outcome : Except JsException OutcomeRecord),
      (index, outcome) ∈ (runPipelines total onProgress check schedule calls).1 →
      ∃ urlEntry before, (index, urlEntry) ∈ schedule ∧
        outcome = (pipeline total onProgress (check index urlEntry) index urlEntry before).1 := by
  induction schedule with
  | nil =>
    intro calls index outcome h
    simp [runPipelines] at h
  | cons p rest ih =>
    intro calls index outcome h
    obtain ⟨i, e⟩ := p
    simp only [runPipelines, List.mem_cons, Prod.mk.injEq] at h
    rcases h with ⟨hi, ho⟩ | h
    · subst hi
      exact ⟨e, calls, List.mem_cons_self _ _, ho⟩
    · obtain ⟨urlEntry, before, hmem, hout⟩ := ih _ index outcome h
      exact ⟨urlEntry, before, List.mem_cons_of_mem _ hmem, hout⟩

/-- When every settled task holds a record, there is no rejection. -/
theorem firstRejection_eq_none (settled : List (Nat × Except JsException OutcomeRecord))
    (h : ∀ p ∈ settled, ∃ record, p.2 = .ok record) : firstRejection settled = none := by
  induction settled with
  | nil => rfl
  | cons p rest ih =>
    obtain ⟨i, o⟩ := p
    obtain ⟨record, hr⟩ := h (i, o) (List.mem_cons_self _ _)
    simp only at hr
    subst hr
    simp only [firstRejection]
    exact ih (fun q hq => h q (List.mem_cons_of_mem _ hq))

/-- A task whose index is among the settled ones is found by `lookup`. -/
theorem lookup_of_mem_indices {β : Type} (settled : List (Nat × β)) (index : Nat)
    (h : index ∈ settled.map Prod.fst) :
    ∃ outcome, settled.lookup index = some outcome ∧ (index, outcome) ∈ settled := by
  induction settled with
  | nil => simp at h
  | cons p rest ih =>
    obtain ⟨i, o⟩ := p
    by_cases hi : index = i
    · subst hi
      exact ⟨o, by simp, List.mem_cons_self _ _⟩
    · have hrest : index ∈ rest.map Prod.fst := by
        simp only [List.map_cons, List.mem_cons] at h
        rcases h with h | h
        · exact absurd h hi
        · exact h
      obtain ⟨outcome, hl, hm⟩ := ih hrest
      refine ⟨outcome, ?_, List.mem_cons_of_mem _ hm⟩
      rw [List.lookup_cons]
      have hb : (index == i) = false := by simpa using hi
      rw [hb]
      exact hl

/-- When every task of the list has settled with a record related to
it, the collected records are related to the tasks position by position. -/
theorem collectResults_forall₂ (R : Nat × UrlEntry → OutcomeRecord → Prop)
    (settled : List (Nat × Except JsException OutcomeRecord)) (tasks : List (Nat × UrlEntry))
    (h : ∀ p ∈ tasks, ∃ record, settled.lookup p.1 = some (.ok record) ∧ R p record) :
    ∃ records, collectResults settled tasks = some records ∧ List.Forall₂ R tasks records := by
  induction tasks with
  | nil => exact ⟨[], rfl, List.Forall₂.nil⟩
  | cons p rest ih =>
    obtain ⟨i, e⟩ := p
    obtain ⟨record, hl, hr⟩ := h (i, e) (List.mem_cons_self _ _)
    obtain ⟨records, hc, hall⟩ := ih (fun q hq => h q (List.mem_cons_of_mem _ hq))
    refine ⟨record :: records, ?_, List.Forall₂.cons hr hall⟩
    simp only at hl
    simp only [collectResults, hl, hc, Option.map_some']

/-- The records of a run, position by position. Suppose every entry is
scheduled once (`schedule` is a rearrangement of the task list) and the
pipeline of every entry, whatever calls of the callback came before it,
settles with a record that satisfies `R`. Then `executeParallel`
resolves, with as many records as entries, and the record at each
position satisfies `R` for the entry at that position. -/
theorem executeParallelWith_settles (check : Nat → UrlEntry → CheckResult)
    (urls : List UrlEntry) (onProgress : Option ProgressCallback)
    (schedule : List (Nat × UrlEntry)) (R : Nat → UrlEntry → OutcomeRecord → Prop)
    (hperm : schedule.Perm urls.enum)
    (hR : ∀ index urlEntry calls, urls[index]? = some urlEntry →
      ∃ record, (pipeline urls.length onProgress (check index urlEntry) index urlEntry
          calls).1 = .ok record ∧ R index urlEntry record) :
    ∃ results, (executeParallelWith check urls onProgress schedule).settlement
        = some (.ok results) ∧
      results.length = urls.length ∧
      ∀ index urlEntry, urls[index]? = some urlEntry →
        ∃ record, results[index]? = some record ∧ R index urlEntry record := by
  have hsettled : ∀ index outcome,
      (index, outcome) ∈ (runPipelines urls.length onProgress check schedule []).1 →
      ∃ urlEntry record, urls[index]? = some urlEntry ∧ outcome = .ok record ∧
        R index urlEntry record := by
    intro index outcome hmem
    obtain ⟨urlEntry, before, hsched, hout⟩ := runPipelines_mem _ _ _ _ _ _ _ hmem
    have hget : urls[index]? = some urlEntry :=
      List.mk_mem_enum_iff_getElem?.mp (hperm.mem_iff.mp hsched)
    obtain ⟨record, hrec, hrel⟩ := hR index urlEntry before hget
    exact ⟨urlEntry, record, hget, hout.trans hrec, hrel⟩
  have hnone : firstRejection (runPipelines urls.length onProgress check schedule []).1
      = none := by
    apply firstRejection_eq_none
    rintro ⟨index, outcome⟩ hp
    obtain ⟨_, record, _, hout, _⟩ := hsettled index outcome hp
    exact ⟨record, hout⟩
  obtain ⟨results, hcollect, hall⟩ :=
    collectResults_forall₂ (fun p record => R p.1 p.2 record)
      (runPipelines urls.length onProgress check schedule []).1 urls.enum
      (by
        rintro ⟨index, urlEntry⟩ hp
        have hget : urls[index]? = some urlEntry := List.mk_mem_enum_iff_getElem?.mp hp
        have hidx : index ∈
            (runPipelines urls.length onProgress check schedule []).1.map Prod.fst := by
          rw [runPipelines_indices]
          exact List.mem_map_of_mem Prod.fst (hperm.mem_iff.mpr hp)
        obtain ⟨outcome, hlook, hmem⟩ := lookup_of_mem_indices _ index hidx
        obtain ⟨urlEntry', record, hget', hout, hrel⟩ := hsettled index outcome hmem
        rw [hget] at hget'
        injection hget' with hget'
        subst hget'
        exact ⟨record, by rw [hlook, hout], hrel⟩)
  have hlen : results.length = urls.length := by
    rw [← hall.length_eq, List.enum_length]
  refine ⟨results, ?_, hlen, ?_⟩
  · simp [executeParallelWith, promiseAll, hnone, hcollect]
  · intro index urlEntry hget
    have hlt : index < urls.length := by
      rcases Nat.lt_or_ge index urls.length with h | h
      · exact h
      · rw [List.getElem?_eq_none h] at hget
        cases hget
    have hlt' : index < results.length := by omega
    have hlte : index < urls.enum.length := by rw [List.enum_length]; exact hlt
    refine ⟨results[index], List.getElem?_eq_getElem hlt', ?_⟩
    have h := hall.get hlte hlt'
    simp only [List.get_eq_getElem, List.getElem_enum] at h
    have hu : urls[index] = urlEntry := by
      rw [List.getElem?_eq_getElem hlt] at hget
      injection hget
    rw [hu] at h
    exact h

/-- The record `checkUrl` returns carries the URL it was called with,
on every path. -/
theorem checkUrl_url (config : RetryConfig) (net : Transport) (url : String)
    (startTime endTime : Int) : (checkUrl config net url startTime endTime).url = url := by
  unfold checkUrl
  cases hout : (executeWithRetry config (checkUrlProbe net) url RetryOptions.empty).1 with
  | returned result attempts =>
    simp only
    cases classifyError (.val result.status) none with
    | error x => rfl
    | ok classification => rfl
  | returnedUndefined => rfl
  | thrown record =>
    obtain ⟨_, _, _, _, _, _, _, _, _, _, hurl, _⟩ :=
      executeWithRetry_thrown_record config (checkUrlProbe net) url RetryOptions.empty record hout
    simp only
    split_ifs with h
    · exact hurl
    · rfl
  | raised x => rfl

/-- C14: for every input list, every order in which the checks complete
and every callback (none, or one that never throws `null` or
`undefined`), `executeParallel` resolves to a list of the same length
whose record at each index carries the URL of the entry at that index. -/
theorem executeParallel_preserves_order (config : RetryConfig) (env : Nat → CheckEnv)
    (urls : List UrlEntry) (onProgress : Option ProgressCallback)
    (schedule : List (Nat × UrlEntry)) (hperm : schedule.Perm urls.enum)
    (hcb : ∀ callback calls progress error, onProgress = some callback →
      callback calls progress = .threw error → error ≠ .null ∧ error ≠ .undefined) :
    ∃ results, (executeParallel config env urls onProgress schedule).settlement
        = some (.ok results) ∧
      results.length = urls.length ∧
      ∀ (index : Nat) (urlEntry : UrlEntry), urls[index]? = some urlEntry →
        ∃ record, results[index]? = some record ∧ record.url = urlEntry.url := by
  unfold executeParallel
  apply executeParallelWith_settles _ urls onProgress schedule
    (fun _ urlEntry record => record.url = urlEntry.url) hperm
  intro index urlEntry calls _
  simp only [pipeline]
  cases onProgress with
  | none => exact ⟨_, rfl, checkUrl_url _ _ _ _ _⟩
  | some callback =>
    simp only
    cases hc : callback calls
        { completed := index + 1, total := urls.length, url := urlEntry.url,
          statusCode := (checkUrl config (env index).net urlEntry.url (env index).startTime
            (env index).endTime).statusCode } with
    | returned => exact ⟨_, rfl, checkUrl_url _ _ _ _ _⟩
    | threw error =>
      obtain ⟨hn, hu⟩ := hcb callback _ _ error rfl hc
      cases error with
      | null => exact absurd rfl hn
      | undefined => exact absurd rfl hu
      | falsy => exact ⟨_, rfl, rfl⟩
      | obj e => exact ⟨_, rfl, rfl⟩

/-- The statement of C14 for two entries whose checks complete in the
reverse of the input order, with no callback. -/
theorem executeParallel_preserves_order_witness :
    ∃ results, (executeParallel defaultRetryConfig okEnv twoUrls none
        [(1, { url := "https://example.com/b" }), (0, { url := "https://example.com/a" })]
        ).settlement = some (.ok results) ∧
      results.length = twoUrls.length ∧
      ∀ (index : Nat) (urlEntry : UrlEntry), twoUrls[index]? = some urlEntry →
        ∃ record, results[index]? = some record ∧ record.url = urlEntry.url :=
  executeParallel_preserves_order defaultRetryConfig okEnv twoUrls none
    [(1, { url := "https://example.com/b" }), (0, { url := "https://example.com/a" })]
    (List.Perm.swap _ _ _) (fun _ _ _ _ h => by cases h)

/-- C15 fails on the code: with two entries whose checks complete in the
reverse of the input order, the first call of `onProgress` reports
`completed = 2` and the second reports `completed = 1`: the callback is
given `index + 1`, the position in the input, not the number of
pipelines finished so far. -/
theorem executeParallel_progress_reports_index :
    (executeParallel defaultRetryConfig okEnv twoUrls (some quietCallback)
        [(1, { url := "https://example.com/b" }), (0, { url := "https://example.com/a" })]
      ).progressCalls
      = [{ completed := 2, total := 2, url := "https://example.com/b", statusCode := .val 200 },
         { completed := 1, total := 2, url := "https://example.com/a", statusCode := .val 200 }] := by
  decide

/-- C16 fails on the code: with a callback that throws `new Error('boom')`
the records are those of the `catch` block (category `error`), while
with no callback they are the records of `checkUrl`. -/
theorem executeParallel_throwing_callback_changes_records :
    (executeParallel defaultRetryConfig okEnv [{ url := "https://example.com/a" }] none
        [(0, { url := "https://example.com/a" })]).settlement
      = some (.ok [{ url := "https://example.com/a", statusCode := .val 200,
                     responseTime := some 50, attempts := 1, redirectUrl := .undefined,
                     category := "success", description := some "Success", error := .null }]) ∧
    (executeParallel defaultRetryConfig okEnv [{ url := "https://example.com/a" }]
        (some throwingCallback) [(0, { url := "https://example.com/a" })]).settlement
      = some (.ok [{ url := "https://example.com/a", statusCode := .null,
                     responseTime := some 0, attempts := 1, redirectUrl := .undefined,
                     category := "error", description := some "boom", error := .val "boom" }]) :=
  ⟨rfl, rfl⟩

/-- The executor with the check of a pipeline left open: if the check
of the entry at index `i` throws a value whose `message` can be read, no
check throws `null` or `undefined`, and the callback (if any) never
throws, then the run resolves; the record at `i` is the `error` record
of that entry, and every entry whose check yields a record has exactly
that record at its index. -/
theorem executeParallelWith_fault_contained (check : Nat → UrlEntry → CheckResult)
    (urls : List UrlEntry) (onProgress : Option ProgressCallback)
    (schedule : List (Nat × UrlEntry)) (i : Nat) (entry : UrlEntry) (fault : Thrown)
    (message : Option String) (hperm : schedule.Perm urls.enum)
    (hcb : ∀ callback calls progress, onProgress = some callback →
      callback calls progress = .returned)
    (hothers : ∀ index urlEntry error, check index urlEntry = .rejected error →
      ∃ m, error.readMessage = .ok m)
    (hi : urls[i]? = some entry) (hfault : check i entry = .rejected fault)
    (hmsg : fault.readMessage = .ok message) :
    ∃ results, (executeParallelWith check urls onProgress schedule).settlement
        = some (.ok results) ∧
      results.length = urls.length ∧
      (∃ record, results[i]? = some record ∧ record = pipelineErrorRecord entry message ∧
        record.url = entry.url ∧ record.statusCode = .null ∧ record.responseTime = some 0 ∧
        record.attempts = 1 ∧ record.category = "error" ∧ record.description = message ∧
        ∀ m, message = some m → record.error = .val m) ∧
      ∀ (j : Nat) (urlEntry : UrlEntry) (record : OutcomeRecord), urls[j]? = some urlEntry →
        check j urlEntry = .resolved record → results[j]? = some record := by
  obtain ⟨results, hset, hlen, hall⟩ :=
    executeParallelWith_settles check urls onProgress schedule
      (fun index urlEntry record =>
        (∀ r, check index urlEntry = .resolved r → record = r) ∧
        (∀ error m, check index urlEntry = .rejected error → error.readMessage = .ok m →
          record = pipelineErrorRecord urlEntry m))
      hperm
      (by
        intro index urlEntry calls _
        cases hc : check index urlEntry with
        | rejected error =>
          obtain ⟨m, hm⟩ := hothers index urlEntry error hc
          refine ⟨pipelineErrorRecord urlEntry m, by simp [pipeline, pipelineCatch, hm], ?_, ?_⟩
          · intro r hr
            rw [hc] at hr
            cases hr
          · intro error' m' he hm'
            rw [hc] at he
            injection he with he
            subst he
            rw [hm] at hm'
            injection hm' with hm'
            rw [hm']
        | resolved result =>
          refine ⟨result, ?_, ?_, ?_⟩
          · cases onProgress with
            | none => rfl
            | some callback => simp [pipeline, hcb callback _ _ rfl]
          · intro r hr
            rw [hc] at hr
            injection hr
          · intro error m he
            rw [hc] at he
            cases he)
  refine ⟨results, hset, hlen, ?_, ?_⟩
  · obtain ⟨record, hrec, _, herr⟩ := hall i entry hi
    have hrecord := herr fault message hfault hmsg
    subst hrecord
    refine ⟨_, hrec, rfl, rfl, rfl, rfl, rfl, rfl, rfl, ?_⟩
    intro m hm
    subst hm
    rfl
  · intro j urlEntry record hj hcheck
    obtain ⟨record', hrec, hres, _⟩ := hall j urlEntry hj
    rw [hrec, hres record hcheck]

/-- An instance of the previous theorem: two entries, the check of the
first of which throws `new Error('fault')`. The run resolves, the first
record is the `error` record and the second is the record of its check. -/
theorem executeParallelWith_fault_contained_witness :
    ∃ results, (executeParallelWith faultAtZero twoUrls none twoUrls.enum).settlement
        = some (.ok results) ∧
      results.length = twoUrls.length ∧
      (∃ record, results[0]? = some record ∧
        record = pipelineErrorRecord { url := "https://example.com/a" } (some "fault") ∧
        record.url = "https://example.com/a" ∧ record.statusCode = .null ∧
        record.responseTime = some 0 ∧ record.attempts = 1 ∧ record.category = "error" ∧
        record.description = some "fault" ∧
        ∀ m, some "fault" = some m → record.error = .val m) ∧
      ∀ (j : Nat) (urlEntry : UrlEntry) (record : OutcomeRecord), twoUrls[j]? = some urlEntry →
        faultAtZero j urlEntry = .resolved record → results[j]? = some record :=
  executeParallelWith_fault_contained faultAtZero twoUrls none twoUrls.enum 0
    { url := "https://example.com/a" }
    (.obj { code := none, message := some "fault", response := none }) (some "fault")
    (List.Perm.refl _) (fun _ _ _ h => by cases h)
    (fun index urlEntry error h => by
      unfold faultAtZero at h
      split_ifs at h
      injection h with h
      subst h
      exact ⟨some "fault", rfl⟩)
    rfl rfl rfl

/-- With a callback that never throws, the promise of `executeParallel`
settles as it does with no callback. -/
theorem executeParallel_quiet_callback (config : RetryConfig) (env : Nat → CheckEnv)
    (urls : List UrlEntry) (callback : ProgressCallback) (schedule : List (Nat × UrlEntry))
    (hperm : schedule.Perm urls.enum)
    (hquiet : ∀ calls progress, callback calls progress = .returned) :
    (executeParallel config env urls (some callback) schedule).settlement
      = (executeParallel config env urls none schedule).settlement := by
  obtain ⟨results, hset, hlen, hall⟩ :=
    executeParallelWith_settles
      (fun index urlEntry =>
        .resolved (checkUrl config (env index).net urlEntry.url (env index).startTime
          (env index).endTime))
      urls (some callback) schedule
      (fun index urlEntry record =>
        record = checkUrl config (env index).net urlEntry.url (env index).startTime
          (env index).endTime)
      hperm
      (fun index urlEntry calls _ => ⟨_, by simp [pipeline, hquiet], rfl⟩)
  obtain ⟨results', hset', hlen', hall'⟩ :=
    executeParallelWith_settles
      (fun index urlEntry =>
        .resolved (checkUrl config (env index).net urlEntry.url (env index).startTime
          (env index).endTime))
      urls none schedule
      (fun index urlEntry record =>
        record = checkUrl config (env index).net urlEntry.url (env index).startTime
          (env index).endTime)
      hperm
      (fun index urlEntry calls _ => ⟨_, rfl, rfl⟩)
  have heq : results = results' := by
    apply List.ext_getElem?
    intro n
    rcases Nat.lt_or_ge n urls.length with hn | hn
    · obtain ⟨record, hr, hrec⟩ := hall n urls[n] (List.getElem?_eq_getElem hn)
      obtain ⟨record', hr', hrec'⟩ := hall' n urls[n] (List.getElem?_eq_getElem hn)
      rw [hr, hr', hrec, hrec']
    · rw [List.getElem?_eq_none (by omega), List.getElem?_eq_none (by omega)]
  unfold executeParallel
  rw [hset, hset', heq]

/-! ## The statistics -/

/-- The filter of the array `successful` keeps exactly the records with
a numeric status in [200,400). -/
theorem successful_test_eq (r : OutcomeRecord) :
    (statusGe r.statusCode 200 && statusLt r.statusCode 400)
      = (match r.statusCode with
          | .val v => decide (200 ≤ v ∧ v < 400)
          | _ => false) := by
  cases r.statusCode <;> simp [statusGe, statusLt]

/-- The filter of the array `failed` keeps exactly the records with a
numeric status of at least 400. -/
theorem failed_test_eq (r : OutcomeRecord) :
    statusGe r.statusCode 400
      = (match r.statusCode with
          | .val v => decide (400 ≤ v)
          | _ => false) := by
  cases r.statusCode <;> simp [statusGe]

/-- C20: for every outcome list, `successful` is the number of records
with a numeric status in [200,400) and `failed` the number with a
numeric status of at least 400; a record with status `null` (or
`undefined`, or a status below 200) is in neither of the two arrays. -/
theorem calculateStats_successful_failed (results : List OutcomeRecord) :
    (calculateStats results).successful
      = results.countP (fun r => match r.statusCode with
          | .val v => decide (200 ≤ v ∧ v < 400)
          | _ => false) ∧
    (calculateStats results).failed
      = results.countP (fun r => match r.statusCode with
          | .val v => decide (400 ≤ v)
          | _ => false) ∧
    (calculateStats results).successful = (successfulResults results).length ∧
    (calculateStats results).failed = (failedResults results).length ∧
    ∀ r : OutcomeRecord,
      (r.statusCode = .null ∨ r.statusCode = .undefined ∨
        ∃ v : Int, r.statusCode = .val v ∧ v < 200) →
      r ∉ successfulResults results ∧ r ∉ failedResults results := by
  have hs : (successfulResults results).length
      = results.countP (fun r => match r.statusCode with
          | .val v => decide (200 ≤ v ∧ v < 400)
          | _ => false) := by
    unfold successfulResults
    rw [← List.countP_eq_length_filter]
    exact List.countP_congr (fun r _ => by rw [successful_test_eq])
  have hf : (failedResults results).length
      = results.countP (fun r => match r.statusCode with
          | .val v => decide (400 ≤ v)
          | _ => false) := by
    unfold failedResults
    rw [← List.countP_eq_length_filter]
    exact List.countP_congr (fun r _ => by rw [failed_test_eq])
  have hsucc : (calculateStats results).successful = (successfulResults results).length := by
    by_cases h : results.length = 0
    · have : results = [] := List.eq_nil_of_length_eq_zero h
      subst this
      rfl
    · simp only [calculateStats, if_neg h]
  have hfail : (calculateStats results).failed = (failedResults results).length := by
    by_cases h : results.length = 0
    · have : results = [] := List.eq_nil_of_length_eq_zero h
      subst this
      rfl
    · simp only [calculateStats, if_neg h]
  refine ⟨hsucc.trans hs, hfail.trans hf, hsucc, hfail, ?_⟩
  intro r hr
  constructor
  · intro hmem
    have h := (List.mem_filter.mp hmem).2
    rw [successful_test_eq] at h
    rcases hr with h0 | h0 | ⟨v, h0, hv⟩ <;> rw [h0] at h <;> simp at h
    omega
  · intro hmem
    have h := (List.mem_filter.mp hmem).2
    rw [failed_test_eq] at h
    rcases hr with h0 | h0 | ⟨v, h0, hv⟩ <;> rw [h0] at h <;> simp at h
    omega

/-- The counts of C20 on the list of the repository's test: three
successful records and two failed ones. -/
theorem calculateStats_successful_failed_witness :
    (calculateStats mockResults).successful = 3 ∧ (calculateStats mockResults).failed = 2 :=
  ⟨(calculateStats_successful_failed mockResults).1.trans (by decide),
    (calculateStats_successful_failed mockResults).2.1.trans (by decide)⟩

/-! ## The statistics: counts and the empty summary -/

/-- On a non-empty list `calculateStats` takes its second branch. -/
theorem calculateStats_of_ne_nil (results : List OutcomeRecord) (h : results ≠ []) :
    calculateStats results =
      { totalUrls := results.length,
        successful := (successfulResults results).length,
        failed := (failedResults results).length,
        successRate :=
          (successRateDouble (successfulResults results).length results.length).toRat,
        avgResponseTime :=
          if 0 < (positiveResponseTimes results).length then
            roundDiv (positiveResponseTimes results).sum (positiveResponseTimes results).length
          else 0,
        minResponseTime := (sortedTimes results).head?.getD 0,
        maxResponseTime := (sortedTimes results).getLast?.getD 0,
        p50 := getPercentile (sortedTimes results) 50,
        p95 := getPercentile (sortedTimes results) 95,
        p99 := getPercentile (sortedTimes results) 99,
        statusCodeCounts := countStatusCodes results } := by
  have hlen : ¬ results.length = 0 := fun h0 => h (List.eq_nil_of_length_eq_zero h0)
  simp only [calculateStats, if_neg hlen]

/-- Two filters that no element passes together keep, between them, at
most as many elements as the list has. -/
theorem filter_length_add_le {α : Type} (p q : α → Bool) (l : List α)
    (h : ∀ x, p x = true → q x = false) :
    (l.filter p).length + (l.filter q).length ≤ l.length := by
  induction l with
  | nil => simp
  | cons a l ih =>
    by_cases hp : p a = true
    · rw [List.filter_cons_of_pos hp, List.filter_cons_of_neg (by simp [h a hp])]
      simp only [List.length_cons]
      omega
    · by_cases hq : q a = true
      · rw [List.filter_cons_of_neg hp, List.filter_cons_of_pos hq]
        simp only [List.length_cons]
        omega
      · rw [List.filter_cons_of_neg hp, List.filter_cons_of_neg hq]
        simp only [List.length_cons]
        omega

/-- No record passes both the test of `successful` and that of `failed`. -/
theorem successful_not_failed (r : OutcomeRecord)
    (h : (statusGe r.statusCode 200 && statusLt r.statusCode 400) = true) :
    statusGe r.statusCode 400 = false := by
  cases hs : r.statusCode with
  | undefined => rfl
  | null => rfl
  | val v =>
    rw [hs] at h
    simp only [statusGe, statusLt, Bool.and_eq_true, decide_eq_true_eq] at h
    simp only [statusGe, decide_eq_false_iff_not]
    omega

/-- C21: for every non-empty outcome list, `totalUrls` is the length of
the list, `successful` and `failed` are non-negative, and
`successful + failed ≤ totalUrls`. -/
theorem calculateStats_counts_bounded (results : List OutcomeRecord) (h : results ≠ []) :
    (calculateStats results).totalUrls = results.length ∧
    0 ≤ (calculateStats results).successful ∧
    0 ≤ (calculateStats results).failed ∧
    (calculateStats results).successful + (calculateStats results).failed
      ≤ (calculateStats results).totalUrls := by
  rw [calculateStats_of_ne_nil results h]
  refine ⟨rfl, Nat.zero_le _, Nat.zero_le _, ?_⟩
  exact filter_length_add_le _ _ results successful_not_failed

/-- The statement of C21 on the list of the repository's test:
5 records, 3 successful and 2 failed. -/
theorem calculateStats_counts_bounded_witness :
    mockResults ≠ [] ∧
    (calculateStats mockResults).totalUrls = mockResults.length ∧
    0 ≤ (calculateStats mockResults).successful ∧
    0 ≤ (calculateStats mockResults).failed ∧
    (calculateStats mockResults).successful + (calculateStats mockResults).failed
      ≤ (calculateStats mockResults).totalUrls :=
  ⟨by decide, calculateStats_counts_bounded mockResults (by decide)⟩

/-- C27: `calculateStats` on an empty array, on `null` and on
`undefined` returns the summary whose ten numbers are 0 and whose
`statusCodeCounts` is empty. -/
theorem calculateStats_empty :
    calculateStatsArg (.val []) = getEmptyStats ∧
    calculateStatsArg .null = getEmptyStats ∧
    calculateStatsArg .undefined = getEmptyStats ∧
    calculateStats [] = getEmptyStats ∧
    getEmptyStats.totalUrls = 0 ∧ getEmptyStats.successful = 0 ∧ getEmptyStats.failed = 0 ∧
    getEmptyStats.successRate = 0 ∧ getEmptyStats.avgResponseTime = 0 ∧
    getEmptyStats.minResponseTime = 0 ∧ getEmptyStats.maxResponseTime = 0 ∧
    getEmptyStats.p50 = 0 ∧ getEmptyStats.p95 = 0 ∧ getEmptyStats.p99 = 0 ∧
    getEmptyStats.statusCodeCounts = [] :=
  ⟨rfl, rfl, rfl, rfl, rfl, rfl, rfl, rfl, rfl, rfl, rfl, rfl, rfl, rfl, rfl⟩

/-! ## The statistics: response times -/

/-- The array `responseTimes` holds the response times that are
present and greater than 0, in input order. -/
theorem positiveResponseTimes_eq (results : List OutcomeRecord) :
    positiveResponseTimes results
      = (results.filterMap (fun r => r.responseTime)).filter (fun t => decide (0 < t)) := by
  unfold positiveResponseTimes
  induction results with
  | nil => rfl
  | cons r rest ih =>
    cases hr : r.responseTime with
    | none => simpa [List.filterMap_cons, hr] using ih
    | some v =>
      by_cases hv : 0 < v
      · simp only [List.map_cons, List.filterMap_cons, hr, hv, if_true]
        rw [List.filter_cons_of_pos (by simpa using hv)]
        exact congrArg _ ih
      · simp only [List.map_cons, List.filterMap_cons, hr, hv, if_false]
        rw [List.filter_cons_of_neg (by simpa using hv)]
        exact ih

/-- A time is in `responseTimes` exactly when it is the response time
of some record and is greater than 0. -/
theorem mem_positiveResponseTimes (results : List OutcomeRecord) (t : Int) :
    t ∈ positiveResponseTimes results ↔
      ∃ r ∈ results, r.responseTime = some t ∧ 0 < t := by
  rw [positiveResponseTimes_eq]
  simp only [List.mem_filter, List.mem_filterMap, decide_eq_true_eq]
  constructor
  · rintro ⟨⟨r, hr, ht⟩, hpos⟩
    exact ⟨r, hr, ht, hpos⟩
  · rintro ⟨r, hr, ht, hpos⟩
    exact ⟨⟨r, hr, ht⟩, hpos⟩

/-- The array `sortedTimes` is in ascending order. -/
theorem sortedTimes_sorted (results : List OutcomeRecord) :
    (sortedTimes results).Sorted (fun a b => a ≤ b) :=
  List.sorted_insertionSort _ _

/-- The array `sortedTimes` is a rearrangement of `responseTimes`. -/
theorem sortedTimes_perm (results : List OutcomeRecord) :
    (sortedTimes results).Perm (positiveResponseTimes results) :=
  List.perm_insertionSort _ _

/-- The exact value of `Math.ceil(m / 100)` for a natural number `m`. -/
theorem ceil_div_hundred (m : Nat) : ⌈(m : ℚ) / 100⌉ = (((m + 99) / 100 : Nat) : Int) := by
  rw [Int.ceil_eq_iff]
  have h1 : 100 * ((m + 99) / 100) ≤ m + 99 := Nat.mul_div_le _ _
  have h2 : m ≤ 100 * ((m + 99) / 100) := by omega
  have h1' : (100 : ℚ) * (((m + 99) / 100 : Nat) : ℚ) ≤ (m : ℚ) + 99 := by exact_mod_cast h1
  have h2' : (m : ℚ) ≤ 100 * (((m + 99) / 100 : Nat) : ℚ) := by exact_mod_cast h2
  simp only [Int.cast_natCast]
  constructor
  · rw [lt_div_iff₀ (by norm_num)]
    linarith
  · rw [div_le_iff₀ (by norm_num)]
    linarith

/-- The index used by `getPercentile` is the nearest-rank index of the
specification, for a non-empty array and `p ≤ 100`. -/
theorem percentile_index_eq (n p : Nat) (hn : 0 < n) (hp : p ≤ 100) :
    max 0 ((((p * n + 99) / 100 : Nat) : Int) - 1) = nearestRankIndex n p ∧
    (nearestRankIndex n p).toNat < n := by
  have hceil : ⌈(p : ℚ) / 100 * n⌉ = (((p * n + 99) / 100 : Nat) : Int) := by
    rw [← ceil_div_hundred]
    congr 1
    push_cast
    ring
  have hpn : p * n ≤ 100 * n := Nat.mul_le_mul_right n hp
  have hc : (p * n + 99) / 100 ≤ n := by omega
  unfold nearestRankIndex
  rw [hceil]
  constructor
  · rw [min_eq_right (by omega)]
  · rw [min_eq_right (by omega)]
    omega

/-- The function `getPercentile` returns the element of the sorted
array at the nearest-rank index. -/
theorem getPercentile_eq (sorted : List Int) (p : Nat) (hn : 0 < sorted.length)
    (hp : p ≤ 100) :
    sorted[(nearestRankIndex sorted.length p).toNat]? = some (getPercentile sorted p) := by
  obtain ⟨hidx, hlt⟩ := percentile_index_eq sorted.length p hn hp
  unfold getPercentile
  rw [if_neg (by omega), hidx, List.getElem?_eq_getElem hlt]
  rfl

/-- C22: with `T` the ascending sort of the response times that are
greater than 0 and `n` its length: when `n > 0`, each of `p50`, `p95`,
`p99` is `T[i]` for `i = ceil(p/100 * n) - 1` clamped to `[0, n - 1]`,
with `p` = 50, 95, 99; when `n = 0` all three are 0. -/
theorem calculateStats_percentiles (results : List OutcomeRecord) :
    (sortedTimes results).Sorted (fun a b => a ≤ b) ∧
    (sortedTimes results).Perm
      ((results.filterMap (fun r => r.responseTime)).filter (fun t => decide (0 < t))) ∧
    ((sortedTimes results).length = 0 →
      (calculateStats results).p50 = 0 ∧ (calculateStats results).p95 = 0 ∧
      (calculateStats results).p99 = 0) ∧
    (0 < (sortedTimes results).length →
      (sortedTimes results)[(nearestRankIndex (sortedTimes results).length 50).toNat]?
        = some (calculateStats results).p50 ∧
      (sortedTimes results)[(nearestRankIndex (sortedTimes results).length 95).toNat]?
        = some (calculateStats results).p95 ∧
      (sortedTimes results)[(nearestRankIndex (sortedTimes results).length 99).toNat]?
        = some (calculateStats results).p99) := by
  refine ⟨sortedTimes_sorted results, ?_, ?_, ?_⟩
  · rw [← positiveResponseTimes_eq]
    exact sortedTimes_perm results
  · intro h0
    by_cases hnil : results = []
    · subst hnil
      exact ⟨rfl, rfl, rfl⟩
    · rw [calculateStats_of_ne_nil results hnil]
      simp only [getPercentile, h0, if_true, and_self]
  · intro hpos
    have hnil : results ≠ [] := by
      intro h
      subst h
      simp [sortedTimes, positiveResponseTimes] at hpos
    rw [calculateStats_of_ne_nil results hnil]
    exact ⟨by exact_mod_cast getPercentile_eq _ 50 hpos (by norm_num),
      by exact_mod_cast getPercentile_eq _ 95 hpos (by norm_num),
      by exact_mod_cast getPercentile_eq _ 99 hpos (by norm_num)⟩

/-- In an ascending list every element is at most the last one. -/
theorem le_getLast_of_sorted (l : List Int) (hs : l.Sorted (fun a b => a ≤ b))
    (hne : l ≠ []) : ∀ t ∈ l, t ≤ l.getLast hne := by
  induction l with
  | nil => exact absurd rfl hne
  | cons a rest ih =>
    intro t ht
    cases rest with
    | nil =>
      simp only [List.mem_singleton] at ht
      subst ht
      simp
    | cons b rest' =>
      obtain ⟨hab, hrest⟩ := List.sorted_cons.mp hs
      rw [List.getLast_cons (by simp)]
      rcases List.mem_cons.mp ht with h | h
      · subst h
        exact hab _ (List.getLast_mem _)
      · exact ih hrest (by simp) t h

/-- For a list with a positive response time and `p ≤ 100`, the value
of `getPercentile` is one of the positive response times. -/
theorem getPercentile_mem (results : List OutcomeRecord) (p : Nat) (hp : p ≤ 100)
    (hpos : 0 < (sortedTimes results).length) :
    getPercentile (sortedTimes results) p ∈ positiveResponseTimes results := by
  have h := getPercentile_eq (sortedTimes results) p hpos hp
  have hmem : getPercentile (sortedTimes results) p ∈ sortedTimes results :=
    List.getElem?_mem h
  exact (sortedTimes_perm results).mem_iff.mp hmem

/-- C23: for every outcome list with at least one positive response
time, `minResponseTime` and `maxResponseTime` are the smallest and the
largest positive response time of the list, and each of `p50`, `p95`,
`p99` is greater than 0 and is the response time of a record of the list. -/
theorem calculateStats_min_max_percentiles (results : List OutcomeRecord)
    (h : ∃ r ∈ results, ∃ t : Int, r.responseTime = some t ∧ 0 < t) :
    ((∃ r ∈ results, r.responseTime = some (calculateStats results).minResponseTime) ∧
      0 < (calculateStats results).minResponseTime ∧
      ∀ r ∈ results, ∀ t : Int, r.responseTime = some t → 0 < t →
        (calculateStats results).minResponseTime ≤ t) ∧
    ((∃ r ∈ results, r.responseTime = some (calculateStats results).maxResponseTime) ∧
      0 < (calculateStats results).maxResponseTime ∧
      ∀ r ∈ results, ∀ t : Int, r.responseTime = some t → 0 < t →
        t ≤ (calculateStats results).maxResponseTime) ∧
    (0 < (calculateStats results).p50 ∧
      ∃ r ∈ results, r.responseTime = some (calculateStats results).p50) ∧
    (0 < (calculateStats results).p95 ∧
      ∃ r ∈ results, r.responseTime = some (calculateStats results).p95) ∧
    (0 < (calculateStats results).p99 ∧
      ∃ r ∈ results, r.responseTime = some (calculateStats results).p99) := by
  obtain ⟨r0, hr0, t0, ht0, hpos0⟩ := h
  have hnil : results ≠ [] := List.ne_nil_of_mem hr0
  have hmem0 : t0 ∈ sortedTimes results :=
    (sortedTimes_perm results).mem_iff.mpr
      ((mem_positiveResponseTimes results t0).mpr ⟨r0, hr0, ht0, hpos0⟩)
  have hne : sortedTimes results ≠ [] := List.ne_nil_of_mem hmem0
  have hlen : 0 < (sortedTimes results).length := List.length_pos.mpr hne
  have hsorted := sortedTimes_sorted results
  have hin : ∀ t, t ∈ sortedTimes results →
      (∃ r ∈ results, r.responseTime = some t) ∧ 0 < t := by
    intro t ht
    obtain ⟨r, hr, hrt, hpos⟩ :=
      (mem_positiveResponseTimes results t).mp ((sortedTimes_perm results).mem_iff.mp ht)
    exact ⟨⟨r, hr, hrt⟩, hpos⟩
  have hof : ∀ r ∈ results, ∀ t : Int, r.responseTime = some t → 0 < t →
      t ∈ sortedTimes results := by
    intro r hr t hrt hpos
    exact (sortedTimes_perm results).mem_iff.mpr
      ((mem_positiveResponseTimes results t).mpr ⟨r, hr, hrt, hpos⟩)
  have hpct : ∀ p : Nat, p ≤ 100 →
      0 < getPercentile (sortedTimes results) p ∧
      ∃ r ∈ results, r.responseTime = some (getPercentile (sortedTimes results) p) := by
    intro p hp
    obtain ⟨r, hr, hrt, hpos⟩ :=
      (mem_positiveResponseTimes results _).mp (getPercentile_mem results p hp hlen)
    exact ⟨hpos, r, hr, hrt⟩
  rw [calculateStats_of_ne_nil results hnil]
  simp only
  refine ⟨?_, ?_, hpct 50 (by norm_num), hpct 95 (by norm_num), hpct 99 (by norm_num)⟩
  · cases hT : sortedTimes results with
    | nil => exact absurd hT hne
    | cons a rest =>
      rw [hT] at hsorted
      have hamem : a ∈ sortedTimes results := by rw [hT]; exact List.mem_cons_self _ _
      obtain ⟨hex, hapos⟩ := hin a hamem
      refine ⟨by simpa using hex, by simpa using hapos, ?_⟩
      intro r hr t hrt hpos
      have ht : t ∈ a :: rest := by rw [← hT]; exact hof r hr t hrt hpos
      simp only [List.head?_cons, Option.getD_some]
      rcases List.mem_cons.mp ht with h | h
      · exact le_of_eq h.symm
      · exact (List.sorted_cons.mp hsorted).1 t h
  · have hlast : (sortedTimes results).getLast?.getD 0 = (sortedTimes results).getLast hne := by
      rw [List.getLast?_eq_getLast _ hne]
      rfl
    rw [hlast]
    obtain ⟨hex, hpos⟩ := hin _ (List.getLast_mem hne)
    refine ⟨hex, hpos, ?_⟩
    intro r hr t hrt htpos
    exact le_getLast_of_sorted _ hsorted hne t (hof r hr t hrt htpos)

/-- The statement of C23 for the response times 10, 20, 30, 40, 50: the
minimum is 10, the maximum 50, and the percentiles are 30, 50 and 50. -/
theorem calculateStats_min_max_percentiles_witness :
    (calculateStats (timedResults [10, 20, 30, 40, 50])).minResponseTime = 10 ∧
    (calculateStats (timedResults [10, 20, 30, 40, 50])).maxResponseTime = 50 ∧
    (calculateStats (timedResults [10, 20, 30, 40, 50])).p50 = 30 ∧
    (calculateStats (timedResults [10, 20, 30, 40, 50])).p95 = 50 ∧
    (calculateStats (timedResults [10, 20, 30, 40, 50])).p99 = 50 ∧
    0 < (calculateStats (timedResults [10, 20, 30, 40, 50])).p50 ∧
    ∃ r ∈ timedResults [10, 20, 30, 40, 50],
      r.responseTime = some (calculateStats (timedResults [10, 20, 30, 40, 50])).p50 :=
  ⟨by decide, by decide, by decide, by decide, by decide,
    (calculateStats_min_max_percentiles (timedResults [10, 20, 30, 40, 50])
      ⟨statRecord "https://example.com/" (.val 200) 10, by decide, 10, rfl, by decide⟩).2.2.1⟩

/-! ## The statistics: rounding -/

/-- The model of `Math.round(a / b)` is the floor of `a / b + 1/2`. -/
theorem roundDiv_eq_floor (a : Int) (b : Nat) (hb : 0 < b) :
    roundDiv a b = ⌊(a : ℚ) / b + 1 / 2⌋ := by
  have hb' : (b : ℚ) ≠ 0 := by exact_mod_cast hb.ne'
  have h := Rat.floor_intCast_div_natCast (2 * a + b) (2 * b)
  have hq : (((2 * a + b : Int) : ℚ) / ((2 * b : Nat) : ℚ)) = (a : ℚ) / b + 1 / 2 := by
    push_cast
    field_simp
    ring
  rw [hq] at h
  rw [h]
  unfold roundDiv
  push_cast
  rfl

/-- The model of `Math.round(a / b)` is within one half of `a / b`. -/
theorem roundDiv_near (a : Int) (b : Nat) (hb : 0 < b) :
    |((roundDiv a b : Int) : ℚ) - (a : ℚ) / b| ≤ 1 / 2 := by
  rw [roundDiv_eq_floor a b hb, abs_le]
  have h1 := Int.floor_le ((a : ℚ) / b + 1 / 2)
  have h2 := Int.lt_floor_add_one ((a : ℚ) / b + 1 / 2)
  constructor <;> linarith

/-- C24: for every outcome list, with `times` the response times that
are greater than 0: `avgResponseTime` is 0 when there are none;
otherwise it is their arithmetic mean rounded to the nearest integer (a
half rounds upwards), so it differs from the mean by at most one half. -/
theorem calculateStats_avg (results : List OutcomeRecord) (times : List Int)
    (htimes : times
      = (results.filterMap (fun r => r.responseTime)).filter (fun t => decide (0 < t))) :
    (times = [] → (calculateStats results).avgResponseTime = 0) ∧
    (times ≠ [] →
      (calculateStats results).avgResponseTime
        = ⌊(times.sum : ℚ) / times.length + 1 / 2⌋ ∧
      |((calculateStats results).avgResponseTime : ℚ) - (times.sum : ℚ) / times.length|
        ≤ 1 / 2) := by
  rw [← positiveResponseTimes_eq] at htimes
  subst htimes
  constructor
  · intro hnone
    by_cases hnil : results = []
    · subst hnil
      rfl
    · rw [calculateStats_of_ne_nil results hnil]
      simp [hnone]
  · intro hsome
    have hlen : 0 < (positiveResponseTimes results).length := List.length_pos.mpr hsome
    have hnil : results ≠ [] := by
      intro h
      subst h
      exact hsome rfl
    rw [calculateStats_of_ne_nil results hnil]
    simp only [hlen, if_true]
    exact ⟨roundDiv_eq_floor _ _ hlen, roundDiv_near _ _ hlen⟩

/-- The statement of C24 on the list of the repository's test: the
times 100, 150, 120, 50, 200 have mean 124, and the average is 124. -/
theorem calculateStats_avg_witness :
    (calculateStats mockResults).avgResponseTime
        = ⌊(([100, 150, 120, 50, 200] : List Int).sum : ℚ)
            / ([100, 150, 120, 50, 200] : List Int).length + 1 / 2⌋ ∧
    (calculateStats mockResults).avgResponseTime = 124 :=
  ⟨((calculateStats_avg mockResults [100, 150, 120, 50, 200] (by decide)).2 (by decide)).1,
    by decide⟩

/-! ## The statistics: the status-code histogram -/

/-- Reading a key that differs from the first key skips the first pair. -/
theorem lookup_cons_ne {β : Type} (s k : JsStatus) (b : β) (rest : List (JsStatus × β))
    (h : ¬ s = k) : ((k, b) :: rest).lookup s = rest.lookup s := by
  have hb : (s == k) = false := by simpa using h
  rw [List.lookup_cons, hb]

/-- Reading the first key gives the first value. -/
theorem lookup_cons_eq {β : Type} (k : JsStatus) (b : β) (rest : List (JsStatus × β)) :
    ((k, b) :: rest).lookup k = some b := by
  have hb : (k == k) = true := by simp
  rw [List.lookup_cons, hb]

/-- The effect of one increment on the count read under a key. -/
theorem incrementCount_lookup (counts : List (JsStatus × Nat)) (key s : JsStatus) :
    (incrementCount counts key).lookup s
      = if s = key then some ((counts.lookup s).getD 0 + 1) else counts.lookup s := by
  induction counts with
  | nil =>
    by_cases hs : s = key
    · subst hs
      simp only [incrementCount, lookup_cons_eq, if_true]
      rfl
    · simp only [incrementCount, lookup_cons_ne _ _ _ _ hs, if_neg hs]
  | cons p rest ih =>
    obtain ⟨k, c⟩ := p
    by_cases hk : k = key
    · subst hk
      by_cases hs : s = k
      · subst hs
        simp only [incrementCount, if_true, lookup_cons_eq]
        rfl
      · simp only [incrementCount, if_true, lookup_cons_ne _ _ _ _ hs, if_neg hs]
    · by_cases hs : s = key
      · subst hs
        have hsk : ¬ s = k := fun h => hk h.symm
        simp only [incrementCount, if_neg hk, lookup_cons_ne _ _ _ _ hsk, ih, if_true]
      · by_cases hsk : s = k
        · subst hsk
          simp only [incrementCount, if_neg hk, lookup_cons_eq, if_neg hs]
        · simp only [incrementCount, if_neg hk, lookup_cons_ne _ _ _ _ hsk, ih, if_neg hs]

/-- The count read under a key after the `forEach`, from any starting
object. -/
theorem foldl_incrementCount_lookup (results : List OutcomeRecord) (s : JsStatus) :
    ∀ counts : List (JsStatus × Nat),
      (results.foldl (fun counts r => incrementCount counts r.statusCode) counts).lookup s
        = if results.countP (fun r => decide (r.statusCode = s)) = 0 then counts.lookup s
          else some ((counts.lookup s).getD 0
            + results.countP (fun r => decide (r.statusCode = s))) := by
  induction results with
  | nil => intro counts; simp
  | cons r rest ih =>
    intro counts
    rw [List.foldl_cons, ih, incrementCount_lookup]
    by_cases hr : r.statusCode = s
    · subst hr
      rw [List.countP_cons_of_pos _ _ (by simp)]
      by_cases h0 : rest.countP (fun r' => decide (r'.statusCode = r.statusCode)) = 0
      · simp [h0]
      · simp only [h0, if_false, if_true, Option.getD_some, Nat.add_eq_zero, one_ne_zero,
          and_false]
        congr 1
        omega
    · have hsr : ¬ s = r.statusCode := fun h => hr h.symm
      rw [List.countP_cons_of_neg _ _ (by simpa using hr)]
      simp only [hsr, if_false]

/-- The histogram read as a map: under each status value the count is
the number of records of the whole list with that status, and a status
that does not occur has no key. -/
theorem countStatusCodes_lookup (results : List OutcomeRecord) (s : JsStatus) :
    (countStatusCodes results).lookup s
      = if results.countP (fun r => decide (r.statusCode = s)) = 0 then none
        else some (results.countP (fun r => decide (r.statusCode = s))) := by
  unfold countStatusCodes
  rw [foldl_incrementCount_lookup]
  simp

/-- One increment raises the sum of the counts by one. -/
theorem incrementCount_sum (counts : List (JsStatus × Nat)) (key : JsStatus) :
    ((incrementCount counts key).map Prod.snd).sum = (counts.map Prod.snd).sum + 1 := by
  induction counts with
  | nil => simp [incrementCount]
  | cons p rest ih =>
    obtain ⟨k, c⟩ := p
    by_cases hk : k = key
    · simp [incrementCount, hk]
      omega
    · simp [incrementCount, hk, ih]
      omega

/-- The counts of the histogram sum to the number of records. -/
theorem countStatusCodes_sum (results : List OutcomeRecord) :
    ((countStatusCodes results).map Prod.snd).sum = results.length := by
  have h : ∀ counts : List (JsStatus × Nat),
      ((results.foldl (fun counts r => incrementCount counts r.statusCode) counts).map
        Prod.snd).sum = (counts.map Prod.snd).sum + results.length := by
    induction results with
    | nil => intro counts; simp
    | cons r rest ih =>
      intro counts
      rw [List.foldl_cons, ih, incrementCount_sum, List.length_cons]
      omega
  unfold countStatusCodes
  rw [h]
  simp

/-- One increment adds its key at the end when the key is new, and
leaves the keys as they are otherwise. -/
theorem incrementCount_keys (counts : List (JsStatus × Nat)) (key : JsStatus) :
    (incrementCount counts key).map Prod.fst
      = if key ∈ counts.map Prod.fst then counts.map Prod.fst
        else counts.map Prod.fst ++ [key] := by
  induction counts with
  | nil => simp [incrementCount]
  | cons p rest ih =>
    obtain ⟨k, c⟩ := p
    by_cases hk : k = key
    · subst hk
      simp [incrementCount]
    · have hkey : ¬ key = k := fun h => hk h.symm
      simp only [incrementCount, hk, if_false, List.map_cons, ih, List.mem_cons, hkey,
        false_or]
      split_ifs <;> simp

/-- The keys of the histogram are distinct. -/
theorem countStatusCodes_keys_nodup (results : List OutcomeRecord) :
    ((countStatusCodes results).map Prod.fst).Nodup := by
  have h : ∀ counts : List (JsStatus × Nat), (counts.map Prod.fst).Nodup →
      ((results.foldl (fun counts r => incrementCount counts r.statusCode) counts).map
        Prod.fst).Nodup := by
    induction results with
    | nil => intro counts hc; exact hc
    | cons r rest ih =>
      intro counts hc
      rw [List.foldl_cons]
      apply ih
      rw [incrementCount_keys]
      split_ifs with hmem
      · exact hc
      · rw [List.nodup_append]
        refine ⟨hc, List.nodup_singleton _, ?_⟩
        intro k hk hk'
        rw [List.mem_singleton] at hk'
        subst hk'
        exact hmem hk
  exact h [] List.nodup_nil

/-- C25 fails on the code: of two records that never reached the server
(as `checkUrl` returns them for a URL whose requests time out and for a
URL whose requests fail with an object without `message`), the first has
status `undefined` and the second status `null`, and the histogram
counts them under two keys. -/
theorem calculateStats_unreached_two_keys :
    unreachedResults.map (fun r => r.statusCode) = [.undefined, .null] ∧
    (calculateStats unreachedResults).statusCodeCounts = [(.undefined, 1), (.null, 1)] ∧
    (calculateStats unreachedResults).statusCodeCounts.lookup .null = some 1 := by
  decide

/-! ## The groups of `groupErrorsByType` -/

/-- The effect of one push on the group read under a key. -/
theorem pushError_lookup (errors : List (JsStatus × List ErrorEntry)) (key s : JsStatus)
    (entry : ErrorEntry) :
    (pushError errors key entry).lookup s
      = if s = key then some ((errors.lookup s).getD [] ++ [entry]) else errors.lookup s := by
  induction errors with
  | nil =>
    by_cases hs : s = key
    · subst hs
      simp only [pushError, lookup_cons_eq, if_true]
      rfl
    · simp only [pushError, lookup_cons_ne _ _ _ _ hs, if_neg hs]
  | cons p rest ih =>
    obtain ⟨k, g⟩ := p
    by_cases hk : k = key
    · subst hk
      by_cases hs : s = k
      · subst hs
        simp only [pushError, if_true, lookup_cons_eq]
        rfl
      · simp only [pushError, if_true, lookup_cons_ne _ _ _ _ hs, if_neg hs]
    · by_cases hs : s = key
      · subst hs
        have hsk : ¬ s = k := fun h => hk h.symm
        simp only [pushError, if_neg hk, lookup_cons_ne _ _ _ _ hsk, ih, if_true]
      · by_cases hsk : s = k
        · subst hsk
          simp only [pushError, if_neg hk, lookup_cons_eq, if_neg hs]
        · simp only [pushError, if_neg hk, lookup_cons_ne _ _ _ _ hsk, ih, if_neg hs]

/-- The group read under a key after the `forEach` over `records`, from
any starting object: the entries of the records with that status are
appended, in order. -/
theorem foldl_pushError_lookup (records : List OutcomeRecord) (s : JsStatus) :
    ∀ errors : List (JsStatus × List ErrorEntry),
      (records.foldl
        (fun errors r =>
          pushError errors r.statusCode
            { url := r.url, attempts := r.attempts, error := r.error })
        errors).lookup s
        = if records.filter (fun r => decide (r.statusCode = s)) = [] then errors.lookup s
          else some ((errors.lookup s).getD []
            ++ (records.filter (fun r => decide (r.statusCode = s))).map
              (fun r => { url := r.url, attempts := r.attempts, error := r.error })) := by
  induction records with
  | nil => intro errors; simp
  | cons r rest ih =>
    intro errors
    rw [List.foldl_cons, ih, pushError_lookup]
    by_cases hr : r.statusCode = s
    · subst hr
      rw [List.filter_cons_of_pos (by simp)]
      by_cases h0 : rest.filter (fun r' => decide (r'.statusCode = r.statusCode)) = []
      · simp [h0]
      · simp [h0]
    · have hsr : ¬ s = r.statusCode := fun h => hr h.symm
      rw [List.filter_cons_of_neg (by simpa using hr)]
      simp only [hsr, if_false]

/-- One push raises the sum of the group sizes by one. -/
theorem pushError_sizes (errors : List (JsStatus × List ErrorEntry)) (key : JsStatus)
    (entry : ErrorEntry) :
    ((pushError errors key entry).map (fun p => p.2.length)).sum
      = (errors.map (fun p => p.2.length)).sum + 1 := by
  induction errors with
  | nil => simp [pushError]
  | cons p rest ih =>
    obtain ⟨k, g⟩ := p
    by_cases hk : k = key
    · simp [pushError, hk]
      omega
    · simp [pushError, hk, ih]
      omega

/-- The group sizes of `groupErrorsByType` sum to the number of records
that pass its filter. -/
theorem groupErrorsByType_sizes (results : List OutcomeRecord) :
    ((groupErrorsByType results).map (fun p => p.2.length)).sum
      = (failedResults results).length := by
  have h : ∀ (records : List OutcomeRecord) (errors : List (JsStatus × List ErrorEntry)),
      ((records.foldl
        (fun errors r =>
          pushError errors r.statusCode
            { url := r.url, attempts := r.attempts, error := r.error })
        errors).map (fun p => p.2.length)).sum
        = (errors.map (fun p => p.2.length)).sum + records.length := by
    intro records
    induction records with
    | nil => intro errors; simp
    | cons r rest ih =>
      intro errors
      rw [List.foldl_cons, ih, pushError_sizes, List.length_cons]
      omega
  unfold groupErrorsByType failedResults
  rw [h]
  simp

/-- The count `failed` is the length of the array `failed`, also for the
empty list. -/
theorem calculateStats_failed_eq (results : List OutcomeRecord) :
    (calculateStats results).failed = (failedResults results).length := by
  by_cases h : results = []
  · subst h
    rfl
  · rw [calculateStats_of_ne_nil results h]

/-- C28: for every outcome list, the map `groupErrorsByType` returns has
a key for a status code `c ≥ 400` exactly when some record has status
`c`, and the group under it lists, in input order, the
`{url, attempts, error}` of the records with status `c`; a status below
400, `null` and `undefined` are no keys; and the group sizes sum to the
`failed` count of `calculateStats`. -/
theorem groupErrorsByType_spec (results : List OutcomeRecord) :
    (∀ c : Int, 400 ≤ c →
      (groupErrorsByType results).lookup (.val c)
        = if results.filter (fun r => decide (r.statusCode = .val c)) = [] then none
          else some ((results.filter (fun r => decide (r.statusCode = .val c))).map
            (fun r => { url := r.url, attempts := r.attempts, error := r.error }))) ∧
    (∀ c : Int, c < 400 → (groupErrorsByType results).lookup (.val c) = none) ∧
    (groupErrorsByType results).lookup .null = none ∧
    (groupErrorsByType results).lookup .undefined = none ∧
    ((groupErrorsByType results).map (fun p => p.2.length)).sum
      = (calculateStats results).failed := by
  have hlook : ∀ s : JsStatus,
      (groupErrorsByType results).lookup s
        = if (results.filter (fun r => statusGe r.statusCode 400)).filter
              (fun r => decide (r.statusCode = s)) = [] then none
          else some (((results.filter (fun r => statusGe r.statusCode 400)).filter
              (fun r => decide (r.statusCode = s))).map
            (fun r => { url := r.url, attempts := r.attempts, error := r.error })) := by
    intro s
    unfold groupErrorsByType
    rw [foldl_pushError_lookup]
    simp
  have hfilter : ∀ s : JsStatus,
      (results.filter (fun r => statusGe r.statusCode 400)).filter
          (fun r => decide (r.statusCode = s))
        = results.filter (fun r => decide (r.statusCode = s) && statusGe s 400) := by
    intro s
    rw [List.filter_filter]
    apply List.filter_congr
    intro r _
    by_cases hr : r.statusCode = s
    · simp [hr]
    · simp [hr]
  refine ⟨?_, ?_, ?_, ?_, ?_⟩
  · intro c hc
    rw [hlook, hfilter]
    have hge : statusGe (.val c) 400 = true := by simp [statusGe, hc]
    simp only [hge, Bool.and_true]
  · intro c hc
    rw [hlook, hfilter]
    have hge : statusGe (.val c) 400 = false := by
      simp only [statusGe, decide_eq_false_iff_not]
      omega
    simp [hge]
  · rw [hlook, hfilter]
    simp [statusGe]
  · rw [hlook, hfilter]
    simp [statusGe]
  · rw [groupErrorsByType_sizes, calculateStats_failed_eq]

/-- The statement of C28 on the list of the repository's test: the
group under 404 holds the one record with status 404. -/
theorem groupErrorsByType_spec_witness :
    (groupErrorsByType mockResults).lookup (.val 404)
      = some [{ url := "https://example.com/4", attempts := 1, error := .null }] :=
  ((groupErrorsByType_spec mockResults).1 404 (by decide)).trans (by decide)

/-! ## The statistics do not depend on the order of the input -/

/-- Rearranging the input rearranges the array `responseTimes`. -/
theorem positiveResponseTimes_perm (results results' : List OutcomeRecord)
    (h : results.Perm results') :
    (positiveResponseTimes results).Perm (positiveResponseTimes results') := by
  unfold positiveResponseTimes
  exact (h.map _).filterMap _

/-- Rearranging the input leaves the array `sortedTimes` as it is. -/
theorem sortedTimes_eq_of_perm (results results' : List OutcomeRecord)
    (h : results.Perm results') : sortedTimes results = sortedTimes results' :=
  List.eq_of_perm_of_sorted
    (((sortedTimes_perm results).trans (positiveResponseTimes_perm results results' h)).trans
      (sortedTimes_perm results').symm)
    (sortedTimes_sorted results) (sortedTimes_sorted results')

/-- C30: for every outcome list and every rearrangement of it, the two
summaries of `calculateStats` agree in every field: the counts, the
success rate, the average, minimum, maximum, the three percentiles, and
the histogram read as a map (the same count, or no key, under every
status value). -/
theorem calculateStats_perm (results results' : List OutcomeRecord)
    (h : results.Perm results') :
    (calculateStats results).totalUrls = (calculateStats results').totalUrls ∧
    (calculateStats results).successful = (calculateStats results').successful ∧
    (calculateStats results).failed = (calculateStats results').failed ∧
    (calculateStats results).successRate = (calculateStats results').successRate ∧
    (calculateStats results).avgResponseTime = (calculateStats results').avgResponseTime ∧
    (calculateStats results).minResponseTime = (calculateStats results').minResponseTime ∧
    (calculateStats results).maxResponseTime = (calculateStats results').maxResponseTime ∧
    (calculateStats results).p50 = (calculateStats results').p50 ∧
    (calculateStats results).p95 = (calculateStats results').p95 ∧
    (calculateStats results).p99 = (calculateStats results').p99 ∧
    ∀ s : JsStatus,
      (calculateStats results).statusCodeCounts.lookup s
        = (calculateStats results').statusCodeCounts.lookup s := by
  by_cases hnil : results = []
  · subst hnil
    have h' : results' = [] := List.Perm.eq_nil h.symm
    subst h'
    exact ⟨rfl, rfl, rfl, rfl, rfl, rfl, rfl, rfl, rfl, rfl, fun _ => rfl⟩
  · have hnil' : results' ≠ [] := by
      intro h'
      subst h'
      exact hnil (List.Perm.eq_nil h)
    have hlen : results.length = results'.length := h.length_eq
    have hsucc : (successfulResults results).length = (successfulResults results').length := by
      unfold successfulResults
      exact (h.filter _).length_eq
    have hfail : (failedResults results).length = (failedResults results').length := by
      unfold failedResults
      exact (h.filter _).length_eq
    have hpos := positiveResponseTimes_perm results results' h
    have hsorted := sortedTimes_eq_of_perm results results' h
    rw [calculateStats_of_ne_nil results hnil, calculateStats_of_ne_nil results' hnil']
    simp only [hlen, hsucc, hfail, hsorted, hpos.sum_eq, hpos.length_eq, true_and]
    intro s
    rw [countStatusCodes_lookup, countStatusCodes_lookup, h.countP_eq]

/-- The statement of C30 for the list of the repository's test and its
reverse: the success rate and the median are the same. -/
theorem calculateStats_perm_witness :
    (calculateStats mockResults).successRate = (calculateStats mockResults.reverse).successRate ∧
    (calculateStats mockResults).p50 = (calculateStats mockResults.reverse).p50 ∧
    (calculateStats mockResults).statusCodeCounts.lookup (.val 200)
      = (calculateStats mockResults.reverse).statusCodeCounts.lookup (.val 200) :=
  ⟨(calculateStats_perm mockResults mockResults.reverse
      (List.reverse_perm mockResults).symm).2.2.2.1,
    (calculateStats_perm mockResults mockResults.reverse
      (List.reverse_perm mockResults).symm).2.2.2.2.2.2.2.1,
    (calculateStats_perm mockResults mockResults.reverse
      (List.reverse_perm mockResults).symm).2.2.2.2.2.2.2.2.2.2 (.val 200)⟩

/-! ## Faults inside a pipeline of `executeParallel` -/

/-- In `executeParallel` the only step of a pipeline that can throw is
the call of `onProgress`. If every value the callback throws has a
`message` that can be read (it is not `null` or `undefined`), the run
resolves for every input list and completion order, and the record at
each index is the record of `checkUrl` for that entry, or, when the
callback threw in that pipeline, the `error` record of the entry with
the message of the value thrown. -/
theorem executeParallel_callback_fault_contained (config : RetryConfig) (env : Nat → CheckEnv)
    (urls : List UrlEntry) (callback : ProgressCallback) (schedule : List (Nat × UrlEntry))
    (hperm : schedule.Perm urls.enum)
    (hread : ∀ calls progress fault, callback calls progress = .threw fault →
      ∃ message, fault.readMessage = .ok message) :
    ∃ results, (executeParallel config env urls (some callback) schedule).settlement
        = some (.ok results) ∧
      results.length = urls.length ∧
      ∀ (index : Nat) (urlEntry : UrlEntry), urls[index]? = some urlEntry →
        ∃ record, results[index]? = some record ∧
          (record = checkUrl config (env index).net urlEntry.url (env index).startTime
              (env index).endTime ∨
            ∃ calls progress fault message, callback calls progress = .threw fault ∧
              fault.readMessage = .ok message ∧
              record = pipelineErrorRecord urlEntry message) := by
  unfold executeParallel
  apply executeParallelWith_settles _ urls (some callback) schedule
    (fun index urlEntry record =>
      record = checkUrl config (env index).net urlEntry.url (env index).startTime
          (env index).endTime ∨
        ∃ calls progress fault message, callback calls progress = .threw fault ∧
          fault.readMessage = .ok message ∧ record = pipelineErrorRecord urlEntry message)
    hperm
  intro index urlEntry calls _
  simp only [pipeline]
  cases hc : callback calls
      { completed := index + 1, total := urls.length, url := urlEntry.url,
        statusCode := (checkUrl config (env index).net urlEntry.url (env index).startTime
          (env index).endTime).statusCode } with
  | returned => exact ⟨_, rfl, Or.inl rfl⟩
  | threw fault =>
    obtain ⟨message, hm⟩ := hread _ _ fault hc
    exact ⟨pipelineErrorRecord urlEntry message, by simp [pipelineCatch, hm],
      Or.inr ⟨_, _, fault, message, hc, hm, rfl⟩⟩

/-- C17 fails on the code: when the pipeline of the first of two entries
raises the fault `null` (thrown by `onProgress`), the `catch` block of
that pipeline reads `error.message`, which raises a `TypeError`; the
task rejects, `Promise.all` rejects and `executeParallel` rejects,
although the second entry was checked without fault. With no callback
the same run resolves with two records. -/
theorem executeParallel_rejects_on_null_fault :
    (executeParallel defaultRetryConfig okEnv twoUrls (some nullThrowingCallback)
        twoUrls.enum).settlement
      = some (.error (.typeError "Cannot read properties of null (reading 'message')")) ∧
    (∃ results, (executeParallel defaultRetryConfig okEnv twoUrls none
        twoUrls.enum).settlement = some (.ok results) ∧ results.length = 2) :=
  ⟨rfl, _, rfl, rfl⟩


/-! ## The statistics: the success rate -/

/-- The number of successful records among `tieResults` is 23. -/
theorem successfulResults_tieResults : (successfulResults tieResults).length = 23 := by
  simp [successfulResults, tieResults, statRecord, statusGe, statusLt, List.filter_append,
    List.filter_replicate]

/-- The list `tieResults` has 160 records. -/
theorem length_tieResults : tieResults.length = 160 := by
  simp [tieResults]

/-- The double `Math.round(successRate * 100) / 100` for 23 successful
records of 160, with the doubles it is computed from. -/
theorem successRateDouble_tie :
    roundToDouble 23 160 0 = { mantissa := 5179139571476070, exponent := -55 } ∧
    timesHundred (roundToDouble 23 160 0)
      = { mantissa := 8092405580431359, exponent := -49 } ∧
    timesHundred (timesHundred (roundToDouble 23 160 0))
      = { mantissa := 6322191859711999, exponent := -42 } ∧
    mathRound (timesHundred (timesHundred (roundToDouble 23 160 0))) = 1437 ∧
    successRateDouble 23 160 = { mantissa := 8089590830664253, exponent := -49 } ∧
    roundToDouble 1437 100 0 = { mantissa := 8089590830664253, exponent := -49 } ∧
    roundToDouble 1438 100 0 = { mantissa := 8095220330198467, exponent := -49 } := by
  decide

/-- The double `Math.round(successRate * 100) / 100` for 3 successful
records of 5 is the number 60. -/
theorem successRateDouble_three_of_five :
    successRateDouble 3 5 = { mantissa := 8444249301319680, exponent := -47 } := by
  decide

/-- C26 fails on the code: for 160 records of which 23 are successful
the quotient 100 * 23 / 160 is 14.375, which rounded to two decimal
places is 14.38 (`Math.round` of 1437.5 is 1438). The code computes
`(23 / 160) * 100` in doubles, a number below 14.375, so that its
product with 100 lies below 1437.5, `Math.round` yields 1437 and
`successRate` is the double nearest to 14.37: it is not the double
nearest to 14.38 and it lies more than 1/200 below the quotient. On the
batch with statuses 200, 200, 200, 404, 500 the summary is as the claim
says: 5 records, 3 successful, 2 failed, success rate 60. -/
theorem calculateStats_successRate_tie :
    (calculateStats tieResults).totalUrls = 160 ∧
    (calculateStats tieResults).successful = 23 ∧
    (100 * 23 / 160 : ℚ) = 14375 / 1000 ∧
    roundDiv (100 * 23 * 100) 160 = 1438 ∧
    (timesHundred (roundToDouble 23 160 0)).toRat < 14375 / 1000 ∧
    (timesHundred (timesHundred (roundToDouble 23 160 0))).toRat < 14375 / 10 ∧
    mathRound (timesHundred (timesHundred (roundToDouble 23 160 0))) = 1437 ∧
    (calculateStats tieResults).successRate = (roundToDouble 1437 100 0).toRat ∧
    (calculateStats tieResults).successRate ≠ (roundToDouble 1438 100 0).toRat ∧
    (calculateStats tieResults).successRate < 100 * 23 / 160 - 1 / 200 ∧
    (calculateStats mockResults).totalUrls = 5 ∧
    (calculateStats mockResults).successful = 3 ∧
    (calculateStats mockResults).failed = 2 ∧
    (calculateStats mockResults).successRate = 60 := by
  have hnil : tieResults ≠ [] := by
    intro h
    have hlen := length_tieResults
    rw [h] at hlen
    simp at hlen
  have hrate : (calculateStats tieResults).successRate
      = (successRateDouble 23 160).toRat := by
    rw [calculateStats_of_ne_nil tieResults hnil, successfulResults_tieResults,
      length_tieResults]
  have hmock : (calculateStats mockResults).successRate = (successRateDouble 3 5).toRat := by
    rw [calculateStats_of_ne_nil mockResults (by decide)]
    rfl
  obtain ⟨_, hfirst, hsecond, hround, htie, hlow, hhigh⟩ := successRateDouble_tie
  refine ⟨?_, ?_, by norm_num, by decide, ?_, ?_, hround, ?_, ?_, ?_, by decide, by decide,
    by decide, ?_⟩
  · rw [calculateStats_of_ne_nil tieResults hnil]
    exact length_tieResults
  · rw [calculateStats_of_ne_nil tieResults hnil]
    exact successfulResults_tieResults
  · rw [hfirst]
    norm_num [Double.toRat]
  · rw [hsecond]
    norm_num [Double.toRat]
  · rw [hrate, htie, hlow]
  · rw [hrate, htie, hhigh]
    norm_num [Double.toRat]
  · rw [hrate, htie]
    norm_num [Double.toRat]
  · rw [hmock, successRateDouble_three_of_five]
    norm_num [Double.toRat]


/-! ## The pool of `executeParallel` -/

/-- A limiter that `pLimit` creates has the concurrency asked for and no
active pipeline. -/
theorem pLimit_ok (maxParallel : Int) (limiter : Limiter)
    (h : pLimit maxParallel = .ok limiter) :
    limiter.concurrency = maxParallel ∧ limiter.active = [] := by
  unfold pLimit at h
  by_cases hvalid : 1 ≤ maxParallel
  · rw [if_pos hvalid] at h
    injection h with h
    subst h
    exact ⟨rfl, rfl⟩
  · rw [if_neg hvalid] at h
    cases h

/-- The call `pLimit(maxParallel)` succeeds exactly for a concurrency
from 1 upwards. -/
theorem pLimit_ok_iff (maxParallel : Int) :
    (∃ limiter, pLimit maxParallel = .ok limiter) ↔ 1 ≤ maxParallel := by
  unfold pLimit
  by_cases hvalid : 1 ≤ maxParallel
  · simp [hvalid]
  · simp [hvalid]

/-- A look at the queue keeps the concurrency. -/
theorem Limiter.startNext_concurrency (limiter : Limiter) :
    limiter.startNext.concurrency = limiter.concurrency := by
  unfold Limiter.startNext
  split
  · rfl
  · split <;> rfl

/-- A look at the queue keeps the number of active pipelines within the
concurrency. -/
theorem Limiter.startNext_bound (limiter : Limiter)
    (h : (limiter.active.length : Int) ≤ limiter.concurrency) :
    (limiter.startNext.active.length : Int) ≤ limiter.startNext.concurrency := by
  unfold Limiter.startNext
  split
  · exact h
  · split
    · rename_i hlt
      simp only [List.length_append, List.length_singleton]
      push_cast
      omega
    · exact h

/-- Every event keeps the concurrency. -/
theorem Limiter.step_concurrency (limiter : Limiter) (event : PoolEvent) :
    (limiter.step event).concurrency = limiter.concurrency := by
  cases event with
  | call index => rfl
  | dequeue => exact limiter.startNext_concurrency
  | settle index =>
    simp only [Limiter.step, Limiter.settle]
    split
    · rw [Limiter.startNext_concurrency]
    · rfl

/-- Every event keeps the number of active pipelines within the
concurrency. -/
theorem Limiter.step_bound (limiter : Limiter) (event : PoolEvent)
    (h : (limiter.active.length : Int) ≤ limiter.concurrency) :
    ((limiter.step event).active.length : Int) ≤ (limiter.step event).concurrency := by
  cases event with
  | call index => exact h
  | dequeue => exact limiter.startNext_bound h
  | settle index =>
    simp only [Limiter.step, Limiter.settle]
    split
    · apply Limiter.startNext_bound
      have hle : (limiter.active.erase index).length ≤ limiter.active.length :=
        (List.erase_sublist index limiter.active).length_le
      show ((limiter.active.erase index).length : Int) ≤ limiter.concurrency
      omega
    · exact h

/-- Every state of a trace that starts within the concurrency is within
the concurrency, which never changes. -/
theorem poolTrace_bound (events : List PoolEvent) (limiter : Limiter)
    (h : (limiter.active.length : Int) ≤ limiter.concurrency) :
    ∀ state ∈ poolTrace limiter events,
      state.concurrency = limiter.concurrency ∧
      (state.active.length : Int) ≤ limiter.concurrency := by
  induction events generalizing limiter with
  | nil =>
    intro state hstate
    simp only [poolTrace, List.mem_singleton] at hstate
    subst hstate
    exact ⟨rfl, h⟩
  | cons event events ih =>
    intro state hstate
    simp only [poolTrace, List.mem_cons] at hstate
    rcases hstate with hstate | hstate
    · subst hstate
      exact ⟨rfl, h⟩
    · have hnext := ih (limiter.step event) (limiter.step_bound event h) state hstate
      rw [limiter.step_concurrency event] at hnext
      exact hnext

/-- A look at the queue keeps every active pipeline active. -/
theorem Limiter.startNext_active (limiter : Limiter) (index : Nat)
    (h : index ∈ limiter.active) : index ∈ limiter.startNext.active := by
  unfold Limiter.startNext
  split
  · exact h
  · split
    · exact List.mem_append_left _ h
    · exact h

/-- An active pipeline stays active under every event but its own
settlement. -/
theorem Limiter.step_active (limiter : Limiter) (event : PoolEvent) (index : Nat)
    (h : index ∈ limiter.active) (hevent : event ≠ .settle index) :
    index ∈ (limiter.step event).active := by
  cases event with
  | call other => exact h
  | dequeue => exact limiter.startNext_active index h
  | settle other =>
    have hne : index ≠ other := by
      intro heq
      exact hevent (by rw [heq])
    simp only [Limiter.step, Limiter.settle]
    split
    · apply Limiter.startNext_active
      exact (List.mem_erase_of_ne hne).mpr h
    · exact h

/-- C29: whenever `pLimit(maxParallel)` yields a limiter, so that
pipelines exist at all, then in every state the pool passes through
during `executeParallel`, under every interleaving of calls of `limit`,
looks at the queue and settlements, the number of pipelines that have
started and not settled is at most `maxParallel`; and a pipeline that
has started keeps its slot under every event but the settlement of its
own promise, which comes after all its attempts and backoff sleeps. -/
theorem executeParallel_active_le_maxParallel (maxParallel : Int) (events : List PoolEvent)
    (states : List Limiter) (hrun : executeParallelPool maxParallel events = .ok states) :
    ∀ state ∈ states,
      (state.active.length : Int) ≤ maxParallel ∧
      ∀ (event : PoolEvent) (index : Nat), index ∈ state.active → event ≠ .settle index →
        index ∈ (state.step event).active := by
  intro state hstate
  refine ⟨?_, fun event index hactive hevent => state.step_active event index hactive hevent⟩
  unfold executeParallelPool at hrun
  cases hlimit : pLimit maxParallel with
  | error e =>
    rw [hlimit] at hrun
    cases hrun
  | ok limiter =>
    rw [hlimit] at hrun
    injection hrun with hrun
    subst hrun
    obtain ⟨hconcurrency, hactive⟩ := pLimit_ok maxParallel limiter hlimit
    have hstart : (limiter.active.length : Int) ≤ limiter.concurrency := by
      rw [hactive, hconcurrency]
      simp only [List.length_nil, Nat.cast_zero]
      have hvalid := (pLimit_ok_iff maxParallel).mp ⟨limiter, hlimit⟩
      omega
    have hbound := (poolTrace_bound events limiter hstart state hstate).2
    rw [hconcurrency] at hbound
    exact hbound

/-- The statement of C29 on three pipelines with `maxParallel = 2`: the
pool passes through `threePipelinesStates`, never more than two
pipelines are active, two are active at once before the first
settlement, the third starts when the first settles, and all three
finish. -/
theorem executeParallel_active_le_maxParallel_witness :
    executeParallelPool 2 threePipelines = .ok threePipelinesStates ∧
    (∀ state ∈ threePipelinesStates,
      (state.active.length : Int) ≤ 2 ∧
      ∀ (event : PoolEvent) (index : Nat), index ∈ state.active → event ≠ .settle index →
        index ∈ (state.step event).active) ∧
    threePipelinesStates[5]?.map (fun state => state.active) = some [0, 1] ∧
    threePipelinesStates[7]?.map (fun state => state.active) = some [1, 2] ∧
    threePipelinesStates.getLast?.map (fun state => state.finished) = some [0, 1, 2] :=
  ⟨rfl, executeParallel_active_le_maxParallel 2 threePipelines threePipelinesStates rfl,
    rfl, rfl, rfl⟩


/-- With the concurrency of `config/default.js` the limiter exists, and
under every sequence of events the pool has states. -/
theorem executeParallelPool_default (events : List PoolEvent) :
    ∃ limiter, pLimit defaultMaxParallel = .ok limiter ∧
      executeParallelPool defaultMaxParallel events = .ok (poolTrace limiter events) :=
  ⟨_, rfl, rfl⟩

/-- For a concurrency below 1 the call `pLimit(maxParallel)` raises, and
`executeParallel` has no pool and no pipeline. -/
theorem executeParallelPool_invalid (maxParallel : Int) (events : List PoolEvent)
    (h : maxParallel < 1) :
    ∃ e, executeParallelPool maxParallel events = .error e := by
  have hnot : ¬ 1 ≤ maxParallel := by omega
  refine ⟨.typeError "Expected concurrency to be a number from 1 and up", ?_⟩
  simp only [executeParallelPool, pLimit, if_neg hnot]

end Frontest
